import Mathlib

/-!
# Cluster API: Ignition rendering pipeline and KubeadmControlPlane conversion

A shallow embedding of

* `bootstrap/kubeadm/internal/ignition/clc/clc.go`
  (`templateYAMLIndent`, `renderCLC`, `Render`, `buildIgnitionConfig`, `clcToIgnition`),
* `bootstrap/kubeadm/internal/cloudinit/ignition.go` (`generateIgnition`), and
* `controlplane/kubeadm/api/v1alpha3/conversion.go`
  (`ConvertTo` and `ConvertFrom` of `KubeadmControlPlane` and of `KubeadmControlPlaneList`),

followed by the properties established about them.

Conventions of the embedding.

* A Go `string` is a Lean `String`; a Go `[]byte` holding text is a `String` as well, and a
  returned `[]byte` that may be `nil` is an `Option String` (`none` is `nil`).
* A Go `error` is an `Option String`: `none` is `nil`, `some msg` an error with that message.
  `errors.Wrapf err "m"` and `fmt.Errorf "m: %v"` prepend `"m: "` to the message.
* A Go multi-value return is a Lean tuple in the same order.
* Functions of third-party packages (the Container Linux Config transpiler, `encoding/json`)
  are parameters, collected in the structure `Transpiler`.
-/

set_option autoImplicit false

namespace ClusterApi

/-! ## Diagnostics reports (package `report` of the Ignition validation library) -/

/-- Modelled from the spec: the severity of a diagnostics entry, `Severity ∈ {Warning, Fatal}`.
The type declaration belongs to the third-party report package, which is not part of the
sources. -/
inductive Severity where
  | Warning
  | Fatal
  deriving DecidableEq, Repr

/-- Modelled from the spec: one diagnostics entry, `Entry{Severity, Message}`. -/
structure Entry where
  Kind : Severity
  Message : String
  deriving DecidableEq, Repr

/-- Modelled from the spec: a diagnostics report, an ordered sequence of entries. -/
structure Report where
  Entries : List Entry
  deriving DecidableEq, Repr

/-- Modelled from the spec: `Report.IsFatal`, true when the report holds a Fatal entry. -/
def Report.IsFatal (r : Report) : Bool :=
  r.Entries.any (fun e => decide (e.Kind = Severity.Fatal))

/-- Modelled from the spec: `Report.Merge`, "the ordered concatenation of both
(first-source-first)". The Go method updates its receiver; here the merged report is returned. -/
def Report.Merge (r child : Report) : Report :=
  ⟨r.Entries ++ child.Entries⟩

/-- Modelled from the spec: the word a severity is rendered with. -/
def Severity.toString : Severity → String
  | Severity.Warning => "warning"
  | Severity.Fatal => "error"

/-- Modelled from the spec: the text of one entry (`Entry.String()`), severity then message. -/
def Entry.toString (e : Entry) : String :=
  e.Kind.toString ++ ": " ++ e.Message

/-- Join the texts of a list of entries, one per line. -/
def joinLines : List String → String
  | [] => ""
  | [s] => s
  | s :: t :: rest => s ++ "\n" ++ joinLines (t :: rest)

/-- Modelled from the spec: the report "rendered as text" (`Report.String()`): the entries
in order, separated by line breaks. -/
def Report.toString (r : Report) : String :=
  joinLines (r.Entries.map Entry.toString)

/-! ## Canonical configuration (package `ignition/config/v2_3`) -/

/-- Modelled from the spec: the systemd section of the canonical configuration. -/
structure Systemd (U : Type) where
  Units : List U
  deriving DecidableEq, Repr

/-- Modelled from the spec: the storage section of the canonical configuration. -/
structure Storage (L F : Type) where
  Files : List F
  Links : List L
  deriving DecidableEq, Repr

/-- Modelled from the spec: the canonical configuration (`ignitionTypes.Config`), the
"normalized in-memory representation of system units, storage links, and files". The element
types are those of the third-party package and stay abstract. -/
structure Config (U L F : Type) where
  Systemd : Systemd U
  Storage : Storage L F
  deriving DecidableEq, Repr

/-- The zero value `ignitionTypes.Config{}`. -/
def Config.zero {U L F : Type} : Config U L F :=
  ⟨⟨[]⟩, ⟨[], []⟩⟩

/-- Modelled from the spec: `ignition.Append`, "appending the additional CanonicalConfig's
structural sections (files, units, links) after the base's". -/
def Append {U L F : Type} (oldConfig newConfig : Config U L F) : Config U L F :=
  { Systemd := ⟨oldConfig.Systemd.Units ++ newConfig.Systemd.Units⟩
    Storage := ⟨oldConfig.Storage.Files ++ newConfig.Storage.Files,
                oldConfig.Storage.Links ++ newConfig.Storage.Links⟩ }

/-- The third-party functions `clcToIgnition` and `buildIgnitionConfig` call: `clct.Parse`,
`clct.Convert` (its second argument is the platform) and `json.Marshal` on a canonical
configuration. `Clc` and `Ast` are the transpiler's parsed config and syntax tree. -/
structure Transpiler (Clc Ast U L F : Type) where
  Parse : String → Clc × Ast × Report
  Convert : Clc → String → Ast → Config U L F × Report
  Marshal : Config U L F → Except String String

/-! ## Inputs of the renderer -/

/-- A file to write, `bootstrapv1.File`, with the fields the template reads. -/
structure File where
  Path : String
  Permissions : String
  Content : String
  deriving DecidableEq, Repr

/-- The base descriptor `cloudinit.BaseUserData`, with the fields the template reads. -/
structure BaseUserData where
  WriteFiles : List File
  PreKubeadmCommands : List String
  KubeadmCommand : String
  PostKubeadmCommands : List String
  deriving DecidableEq, Repr

/-- The user-supplied fragment `bootstrapv1.ContainerLinuxConfig`. -/
structure ContainerLinuxConfig where
  AdditionalConfig : String
  Strict : Bool
  deriving DecidableEq, Repr

/-- The template data `render` of clc.go: the embedded base descriptor and the kubeadm
config. -/
structure render where
  BaseUserData : BaseUserData
  KubeadmConfig : String
  deriving DecidableEq, Repr

/-! ## Go `strings` helpers -/

/-- Split a list of characters at every occurrence of `sep`; the result is never empty. -/
def splitChars (sep : Char) : List Char → List (List Char)
  | [] => [[]]
  | c :: cs =>
    if c = sep then [] :: splitChars sep cs
    else
      match splitChars sep cs with
      | [] => [[c]]
      | l :: ls => (c :: l) :: ls

/-- Go `strings.Split s sep` for a one-character separator. -/
def strings.Split (s : String) (sep : Char) : List String :=
  (splitChars sep s.data).map String.mk

/-- Go `strings.Repeat s count` for a non-negative count. -/
def strings.Repeat (s : String) : Nat → String
  | 0 => ""
  | n + 1 => s ++ strings.Repeat s n

/-- Go `strings.Join elems sep`. -/
def strings.Join : List String → String → String
  | [], _ => ""
  | [s], _ => s
  | s :: t :: rest, sep => s ++ sep ++ strings.Join (t :: rest) sep

/-! ## clc.go -/

/-- The template function `Indent`: `templateYAMLIndent` of clc.go. -/
def templateYAMLIndent (i : Nat) (input : String) : String :=
  let split := strings.Split input '\n'
  let ident := "\n" ++ strings.Repeat " " i
  strings.Repeat " " i ++ strings.Join split ident

/-- The text before the first action of `clcTemplate`. -/
def clcTemplateHead : String :=
  "---\nsystemd:\n  units:\n    - name: kubeadm.service\n      enabled: true\n" ++
  "      contents: |\n        [Unit]\n        Description=kubeadm\n        [Service]\n" ++
  "        # To not restart the unit when it exits, as it is expected.\n" ++
  "        Type=oneshot\n        ExecStart=/etc/kubeadm.sh\n        [Install]\n" ++
  "        WantedBy=multi-user.target\n\nstorage:\n  files:"

/-- One iteration of `range .WriteFiles` in `clcTemplate`. The trim markers remove the white
space after the `if` and `end` actions and before the closing `end` of the range. -/
def clcTemplateFile (f : File) : String :=
  "\n  - path: " ++ f.Path ++ "\n    " ++
  (if f.Permissions ≠ "" then "mode: " ++ f.Permissions ++ "\n    " else "") ++
  "contents:\n      inline: |\n" ++ templateYAMLIndent 8 f.Content

/-- One iteration of `range .PreKubeadmCommands` (and of `range .PostKubeadmCommands`). -/
def clcTemplateCommand (c : String) : String :=
  "\n        " ++ c

/-- Concatenate the texts a `range` action produces. -/
def concatMapText {α : Type} (f : α → String) : List α → String
  | [] => ""
  | a :: as => f a ++ concatMapText f as

/-- Executing `clcTemplate` on the template data: `t.Execute(&out, data)`. The template is a
constant and every field it names exists, so execution yields the text. -/
def Execute (data : render) : Except String String :=
  Except.ok (
    clcTemplateHead ++
    concatMapText clcTemplateFile data.BaseUserData.WriteFiles ++
    "\n  - path: /etc/kubeadm.sh\n    mode: 0700\n    contents:\n      inline: |\n" ++
    "        #!/bin/bash\n        set -e" ++
    concatMapText clcTemplateCommand data.BaseUserData.PreKubeadmCommands ++
    "\n\n        " ++ data.BaseUserData.KubeadmCommand ++
    "\n        mv /etc/kubeadm.yml /tmp/" ++
    concatMapText clcTemplateCommand data.BaseUserData.PostKubeadmCommands ++
    "\n  - path: /etc/kubeadm.yml\n    mode: 0600\n    contents:\n      inline: |\n" ++
    "        ---\n" ++ templateYAMLIndent 8 data.KubeadmConfig ++ "\n")

/-- The function `renderCLC` of clc.go. -/
def renderCLC (input : Option BaseUserData) (kubeadmConfig : String) :
    Option String × Option String :=
  match input with
  | none => (none, some "empty base user data")
  | some input =>
    let data : render := { BaseUserData := input, KubeadmConfig := kubeadmConfig }
    match Execute data with
    | Except.error err => (none, some ("failed to render template: " ++ err))
    | Except.ok out => (some out, none)

section Pipeline

variable {Clc Ast U L F : Type}

/-- All the diagnostics a text produces: the entries of the parse stage followed by the
entries of the conversion stage run on the parser's results. -/
def Transpiler.diagnostics (T : Transpiler Clc Ast U L F) (data : String) : Report :=
  (T.Parse data).2.2.Merge (T.Convert (T.Parse data).1 "" (T.Parse data).2.1).2

/-- The canonical configuration a text converts to: the first result of the conversion
stage run on the parser's results. -/
def Transpiler.ignition (T : Transpiler Clc Ast U L F) (data : String) : Config U L F :=
  (T.Convert (T.Parse data).1 "" (T.Parse data).2.1).1

/-- The report `buildIgnitionConfig` has for an additional config: the diagnostics of the text
when it is not empty, and the empty report when it is, since an empty additional config is
not converted ("If `additionalText` is empty, return `base` unchanged with an empty
report"). -/
def Transpiler.additionalReport (T : Transpiler Clc Ast U L F) (additional : String) : Report :=
  if additional ≠ "" then T.diagnostics additional else ⟨[]⟩

/-- The function `clcToIgnition` of clc.go. -/
def clcToIgnition (T : Transpiler Clc Ast U L F) (data : String) (strict : Bool) :
    Config U L F × String × Option String :=
  let (clc, ast, reports) := T.Parse data
  if (decide (reports.Entries.length > 0) && strict) || reports.IsFatal then
    (Config.zero, "", some ("error parsing Container Linux Config: " ++ reports.toString))
  else
    let (ign, report) := T.Convert clc "" ast
    if (decide (report.Entries.length > 0) && strict) || report.IsFatal then
      (Config.zero, "", some ("error converting to Ignition: " ++ report.toString))
    else
      let reports := reports.Merge report
      (ign, reports.toString, none)

/-- The function `buildIgnitionConfig` of clc.go. -/
def buildIgnitionConfig (T : Transpiler Clc Ast U L F) (baseCLC : String)
    (clc : ContainerLinuxConfig) : Option String × String × Option String :=
  match clcToIgnition T baseCLC true with
  | (_, _, some err) => (none, "", some ("converting generated CLC to Ignition: " ++ err))
  | (ign, _, none) =>
    let merged : Except String (Config U L F × String) :=
      if clc.AdditionalConfig ≠ "" then
        match clcToIgnition T clc.AdditionalConfig clc.Strict with
        | (_, _, some err) => Except.error ("converting additional CLC to Ignition: " ++ err)
        | (additionalIgn, warnings, none) => Except.ok (Append ign additionalIgn, warnings)
      else Except.ok (ign, "")
    match merged with
    | Except.error err => (none, "", some err)
    | Except.ok (ign, clcWarnings) =>
      match T.Marshal ign with
      | Except.error err =>
        (none, "", some ("marshaling generated Ignition config into JSON: " ++ err))
      | Except.ok userData => (some userData, clcWarnings, none)

/-- The function `Render` of clc.go. -/
def Render (T : Transpiler Clc Ast U L F) (input : Option BaseUserData)
    (clc : Option ContainerLinuxConfig) (kubeadmConfig : String) :
    Option String × String × Option String :=
  match clc with
  | none => (none, "", some "get empty CLC config")
  | some clc =>
    match renderCLC input kubeadmConfig with
    | (_, some err) => (none, "", some ("rendering CLC configuration: " ++ err))
    | (clcBytes, none) =>
      match buildIgnitionConfig T (clcBytes.getD "") clc with
      | (_, _, some err) => (none, "", some ("building Ignition config: " ++ err))
      | (userData, warnings, none) => (userData, warnings, none)

end Pipeline

/-! ## Versioned schemas of KubeadmControlPlane

The schema types are declared outside the sources. The newer schema (`v1alpha4`, the hub) is
modelled along the path `Spec.KubeadmConfigSpec.Ignition` that `ConvertTo` assigns; the type
of that field and the remaining fields at each level are type parameters. -/

namespace v1alpha4

/-- The newer-schema `KubeadmConfigSpec`: the field `Ignition` and the remaining fields. -/
structure KubeadmConfigSpec (I K : Type) where
  Ignition : I
  Other : K
  deriving DecidableEq, Repr

/-- The newer-schema `KubeadmControlPlaneSpec`. -/
structure KubeadmControlPlaneSpec (I K S : Type) where
  KubeadmConfigSpec : KubeadmConfigSpec I K
  Other : S
  deriving DecidableEq, Repr

/-- The newer-schema resource `v1alpha4.KubeadmControlPlane`. -/
structure KubeadmControlPlane (M I K S T : Type) where
  ObjectMeta : M
  Spec : KubeadmControlPlaneSpec I K S
  Status : T
  deriving DecidableEq, Repr

/-- The zero value `&v1alpha4.KubeadmControlPlane{}`. -/
def KubeadmControlPlane.zero {M I K S T : Type} [Inhabited M] [Inhabited I] [Inhabited K]
    [Inhabited S] [Inhabited T] : KubeadmControlPlane M I K S T :=
  ⟨default, ⟨⟨default, default⟩, default⟩, default⟩

end v1alpha4

/-- The functions of this repository that conversion.go calls and that are declared outside
the sources: the two generated structural mappings and the two snapshot helpers of
`util/conversion`. Each takes the objects the Go function receives and returns the updated
destination together with the Go results. `Old` is the older-schema resource type. -/
structure ConversionFuncs (Old M I K S T : Type) where
  Convert_v1alpha3_KubeadmControlPlane_To_v1alpha4_KubeadmControlPlane :
    Old → v1alpha4.KubeadmControlPlane M I K S T →
      v1alpha4.KubeadmControlPlane M I K S T × Option String
  Convert_v1alpha4_KubeadmControlPlane_To_v1alpha3_KubeadmControlPlane :
    v1alpha4.KubeadmControlPlane M I K S T → Old → Old × Option String
  UnmarshalData :
    Old → v1alpha4.KubeadmControlPlane M I K S T →
      v1alpha4.KubeadmControlPlane M I K S T × Bool × Option String
  MarshalData : v1alpha4.KubeadmControlPlane M I K S T → Old → Old × Option String

namespace v1alpha3

section Methods

variable {Old M I K S T : Type}

/-- The method `(src *KubeadmControlPlane) ConvertTo` of conversion.go. The result is the
destination after the call and the returned error. -/
def KubeadmControlPlane.ConvertTo [Inhabited M] [Inhabited I] [Inhabited K] [Inhabited S]
    [Inhabited T] (D : ConversionFuncs Old M I K S T) (src : Old)
    (dest : v1alpha4.KubeadmControlPlane M I K S T) :
    v1alpha4.KubeadmControlPlane M I K S T × Option String :=
  match D.Convert_v1alpha3_KubeadmControlPlane_To_v1alpha4_KubeadmControlPlane src dest with
  | (dest, some err) => (dest, some err)
  | (dest, none) =>
    let restored : v1alpha4.KubeadmControlPlane M I K S T := v1alpha4.KubeadmControlPlane.zero
    match D.UnmarshalData src restored with
    | (restored, ok, err) =>
      if err ≠ none ∨ ok = false then (dest, err)
      else
        ({ dest with
            Spec := { dest.Spec with
              KubeadmConfigSpec := { dest.Spec.KubeadmConfigSpec with
                Ignition := restored.Spec.KubeadmConfigSpec.Ignition } } }, none)

/-- The method `(dest *KubeadmControlPlane) ConvertFrom` of conversion.go. -/
def KubeadmControlPlane.ConvertFrom (D : ConversionFuncs Old M I K S T) (dest : Old)
    (src : v1alpha4.KubeadmControlPlane M I K S T) : Old × Option String :=
  match D.Convert_v1alpha4_KubeadmControlPlane_To_v1alpha3_KubeadmControlPlane src dest with
  | (dest, some err) => (dest, some err)
  | (dest, none) =>
    match D.MarshalData src dest with
    | (dest, some err) => (dest, some err)
    | (dest, none) => (dest, none)

end Methods

/-! ### The older schema and the absent helpers, from the spec -/

/-- Modelled from the spec: the metadata of an older-schema resource, which "carries an
optional FidelitySnapshot: an opaque byte blob ... attached to the older-schema instance's
metadata". The type declaration is outside the sources. -/
structure ObjectMeta (M : Type) where
  Fields : M
  Snapshot : Option String
  deriving DecidableEq, Repr

/-- Modelled from the spec: the older-schema `KubeadmConfigSpec`, whose type declaration is
outside the sources. It has the field `Ignition` as well: the tests of the older schema
(kubeadmbootstrapconfig_types_test.go) construct `KubeadmConfigSpec{Ignition: &IgnitionSpec{}}`
in package `v1alpha3`. The remaining fields are those of the newer schema. -/
structure KubeadmConfigSpec (I K : Type) where
  Ignition : I
  Other : K
  deriving DecidableEq, Repr

/-- Modelled from the spec: the older-schema `KubeadmControlPlaneSpec`. -/
structure KubeadmControlPlaneSpec (I K S : Type) where
  KubeadmConfigSpec : KubeadmConfigSpec I K
  Other : S
  deriving DecidableEq, Repr

/-- Modelled from the spec: the older-schema resource `v1alpha3.KubeadmControlPlane`, whose
type declaration is outside the sources. -/
structure KubeadmControlPlane (M I K S T : Type) where
  ObjectMeta : ObjectMeta M
  Spec : KubeadmControlPlaneSpec I K S
  Status : T
  deriving DecidableEq, Repr

/-- The serializer of the newer-schema data kept in a snapshot (JSON in the Go code), a
third-party function taken as a parameter. `B` is the serialized data: the hub value
"except for metadata", that is its `Spec` and `Status`. -/
structure Codec (B : Type) where
  Marshal : B → Except String String
  Unmarshal : String → Except String B

section SpecModel

variable {M I K S T : Type}

/-- Modelled from the spec: the generated structural mapping older to newer, absent from the
sources: a "field-by-field structural mapping" in which every field of the older schema,
`Ignition` included, maps to the field of the same name. The snapshot is not a field of the
newer schema. It never fails. -/
def Convert_v1alpha3_KubeadmControlPlane_To_v1alpha4_KubeadmControlPlane
    (src : KubeadmControlPlane M I K S T) (_dest : v1alpha4.KubeadmControlPlane M I K S T) :
    v1alpha4.KubeadmControlPlane M I K S T × Option String :=
  ({ ObjectMeta := src.ObjectMeta.Fields
     Spec :=
      { KubeadmConfigSpec :=
          { Ignition := src.Spec.KubeadmConfigSpec.Ignition
            Other := src.Spec.KubeadmConfigSpec.Other }
        Other := src.Spec.Other }
     Status := src.Status }, none)

/-- Modelled from the spec: the generated structural mapping newer to older, absent from the
sources: every field, `Ignition` included, is copied to the field of the same name, and the
destination starts without a snapshot. It never fails. -/
def Convert_v1alpha4_KubeadmControlPlane_To_v1alpha3_KubeadmControlPlane
    (src : v1alpha4.KubeadmControlPlane M I K S T) (_dest : KubeadmControlPlane M I K S T) :
    KubeadmControlPlane M I K S T × Option String :=
  ({ ObjectMeta := { Fields := src.ObjectMeta, Snapshot := none }
     Spec :=
      { KubeadmConfigSpec :=
          { Ignition := src.Spec.KubeadmConfigSpec.Ignition
            Other := src.Spec.KubeadmConfigSpec.Other }
        Other := src.Spec.Other }
     Status := src.Status }, none)

/-- Modelled from the spec: `utilconversion.MarshalData`, absent from the sources: "serialize
the full newer-generation value and attach it as a FidelitySnapshot on the older value's
metadata (overwriting any prior snapshot)"; the metadata itself is left out of the snapshot
("Preserve Hub data on down-conversion except for metadata"). -/
def MarshalData (C : Codec (v1alpha4.KubeadmControlPlaneSpec I K S × T))
    (src : v1alpha4.KubeadmControlPlane M I K S T) (dst : KubeadmControlPlane M I K S T) :
    KubeadmControlPlane M I K S T × Option String :=
  match C.Marshal (src.Spec, src.Status) with
  | Except.error err => (dst, some err)
  | Except.ok data => ({ dst with ObjectMeta := { dst.ObjectMeta with Snapshot := some data } }, none)

/-- Modelled from the spec: `utilconversion.UnmarshalData`, absent from the sources: it reads
the snapshot (`get(key) -> bytes|absent`) and deserializes it into `into` (the Go parameter `to`). The results are the
Go pair `(bool, error)`: `(false, nil)` when no snapshot is attached, `(false, err)` when
the snapshot does not deserialize, `(true, nil)` otherwise. -/
def UnmarshalData (C : Codec (v1alpha4.KubeadmControlPlaneSpec I K S × T))
    (src : KubeadmControlPlane M I K S T) (into : v1alpha4.KubeadmControlPlane M I K S T) :
    v1alpha4.KubeadmControlPlane M I K S T × Bool × Option String :=
  match src.ObjectMeta.Snapshot with
  | none => (into, false, none)
  | some data =>
    match C.Unmarshal data with
    | Except.error err => (into, false, some err)
    | Except.ok (spec, status) => ({ into with Spec := spec, Status := status }, true, none)

/-- Modelled from the spec: the absent helpers assembled for `ConvertTo` and `ConvertFrom`. -/
def specFuncs (C : Codec (v1alpha4.KubeadmControlPlaneSpec I K S × T)) :
    ConversionFuncs (KubeadmControlPlane M I K S T) M I K S T where
  Convert_v1alpha3_KubeadmControlPlane_To_v1alpha4_KubeadmControlPlane :=
    Convert_v1alpha3_KubeadmControlPlane_To_v1alpha4_KubeadmControlPlane
  Convert_v1alpha4_KubeadmControlPlane_To_v1alpha3_KubeadmControlPlane :=
    Convert_v1alpha4_KubeadmControlPlane_To_v1alpha3_KubeadmControlPlane
  UnmarshalData := UnmarshalData C
  MarshalData := MarshalData C

end SpecModel

end v1alpha3

/-! ## Concrete instances

A small transpiler, a small snapshot serializer and a few resources on which the statements
below are evaluated. -/

/-- A small transpiler over texts. The parser reports the warning "Configuration is empty" on
the empty text, a fatal entry on a text starting with `!`, and nothing otherwise. The
converter turns the text into a configuration with one file and warns when the text starts
with `?`. The serializer lists the files between brackets. -/
def demoTranspiler : Transpiler String Unit String String String where
  Parse data :=
    (data, (),
      match data.data with
      | [] => ⟨[⟨Severity.Warning, "Configuration is empty"⟩]⟩
      | '!' :: _ => ⟨[⟨Severity.Fatal, "invalid syntax"⟩]⟩
      | _ => ⟨[]⟩)
  Convert clc _ _ :=
    (⟨⟨[]⟩, ⟨[clc], []⟩⟩,
      match clc.data with
      | '?' :: _ => ⟨[⟨Severity.Warning, "file mode unset"⟩]⟩
      | _ => ⟨[]⟩)
  Marshal c := Except.ok ("[" ++ strings.Join c.Storage.Files "," ++ "]")

/-- The empty base descriptor `&cloudinit.BaseUserData{}` of the tests. -/
def demoInput : BaseUserData :=
  { WriteFiles := [], PreKubeadmCommands := [], KubeadmCommand := "", PostKubeadmCommands := [] }

/-- A base descriptor with one file and single-line commands. -/
def demoInputCommands : BaseUserData :=
  { WriteFiles := [⟨"/foo", "", "bar"⟩]
    PreKubeadmCommands := ["pre1", "pre2"]
    KubeadmCommand := "kubeadm init"
    PostKubeadmCommands := ["post1"] }

/-- A base descriptor whose pre-kubeadm command and kubeadm command contain a line break. -/
def demoInputMultiline : BaseUserData :=
  { WriteFiles := []
    PreKubeadmCommands := ["a\nb"]
    KubeadmCommand := "x\ny"
    PostKubeadmCommands := [] }

/-- The newer-schema resources of the concrete instances: a name as metadata, an optional
text as `Ignition`, and one flag for the remaining fields at each level. -/
abbrev DemoHub : Type := v1alpha4.KubeadmControlPlane String (Option String) Bool Bool Bool

/-- The older-schema resources of the concrete instances. -/
abbrev DemoSpoke : Type := v1alpha3.KubeadmControlPlane String (Option String) Bool Bool Bool

/-- The character a flag is serialized as. -/
def demoFlag (b : Bool) : Char :=
  if b then 't' else 'f'

/-- Read a flag back from its character. -/
def demoFlagOf (c : Char) : Option Bool :=
  if c = 't' then some true else if c = 'f' then some false else none

/-- A small serializer of hub data: three flag characters, then `-` for an absent `Ignition`
or `+` followed by its text. Any other text fails to deserialize. -/
def demoCodec : v1alpha3.Codec (v1alpha4.KubeadmControlPlaneSpec (Option String) Bool Bool × Bool) where
  Marshal b :=
    Except.ok (String.mk
      (demoFlag b.1.KubeadmConfigSpec.Other :: demoFlag b.1.Other :: demoFlag b.2 ::
        (match b.1.KubeadmConfigSpec.Ignition with
          | none => [ '-' ]
          | some ign => '+' :: ign.data)))
  Unmarshal data :=
    match data.data with
    | k :: s :: t :: m :: rest =>
      match demoFlagOf k, demoFlagOf s, demoFlagOf t with
      | some k, some s, some t =>
        if m = '+' then Except.ok (⟨⟨some (String.mk rest), k⟩, s⟩, t)
        else if m = '-' ∧ rest = [] then Except.ok (⟨⟨none, k⟩, s⟩, t)
        else Except.error "invalid character"
      | _, _, _ => Except.error "invalid character"
    | _ => Except.error "unexpected end of input"

/-- The helper functions of conversion.go over the small serializer. -/
def demoFuncs : ConversionFuncs DemoSpoke String (Option String) Bool Bool Bool :=
  v1alpha3.specFuncs demoCodec

/-- An older-schema resource without a snapshot. -/
def demoSpokePlain : DemoSpoke :=
  { ObjectMeta := { Fields := "kcp", Snapshot := none }
    Spec := { KubeadmConfigSpec := { Ignition := some "plain", Other := true }, Other := false }
    Status := true }

/-- An older-schema resource whose snapshot does not deserialize. -/
def demoSpokeBroken : DemoSpoke :=
  { ObjectMeta := { Fields := "kcp", Snapshot := some "not json" }
    Spec := { KubeadmConfigSpec := { Ignition := some "plain", Other := true }, Other := false }
    Status := true }

/-- An older-schema resource whose snapshot deserializes and disagrees with the resource on
every field, `Ignition` included: the resource holds `edited`, the snapshot `strict`. -/
def demoSpokeSnapshot : DemoSpoke :=
  { ObjectMeta := { Fields := "kcp", Snapshot := some "ftf+strict" }
    Spec := { KubeadmConfigSpec := { Ignition := some "edited", Other := true }, Other := false }
    Status := true }

/-- An older-schema resource whose snapshot deserializes and holds the `Ignition` value of
the resource. -/
def demoSpokeSynced : DemoSpoke :=
  { ObjectMeta := { Fields := "kcp", Snapshot := some "tft+strict" }
    Spec := { KubeadmConfigSpec := { Ignition := some "strict", Other := true }, Other := false }
    Status := true }

/-- A newer-schema resource with an `Ignition` value. -/
def demoHub : DemoHub :=
  { ObjectMeta := "kcp"
    Spec := { KubeadmConfigSpec := { Ignition := some "strict", Other := true }, Other := false }
    Status := true }

/-- A destination that already holds values, to show which fields a conversion overwrites. -/
def demoHubStale : DemoHub :=
  { ObjectMeta := "stale"
    Spec := { KubeadmConfigSpec := { Ignition := some "stale", Other := false }, Other := true }
    Status := false }

/-! ## cloudinit/ignition.go -/

/-- The functions of `text/template` that `generateIgnition` calls, as parameters: `Parse`
stands for `template.New(kind).Funcs(defaultTemplateFuncMap).Parse(tpl)` and `Execute` for
`t.Execute(&out, data)`. `Tmpl` is the parsed template and `Data` the template data. -/
structure TemplateFuncs (Tmpl Data : Type) where
  Parse : String → String → Except String Tmpl
  Execute : Tmpl → Data → Except String String

section Cloudinit

variable {Clc Ast U L F Tmpl Data : Type}

/-- The function `generateIgnition` of cloudinit/ignition.go. The constant `platform.EC2` of
the transpiler is declared outside the sources and is the parameter `platformEC2`. -/
def generateIgnition (T : Transpiler Clc Ast U L F) (E : TemplateFuncs Tmpl Data)
    (platformEC2 : String) (kind tpl : String) (data : Data) :
    Option String × Option String :=
  match E.Parse kind tpl with
  | Except.error err => (none, some ("failed to parse " ++ kind ++ " template: " ++ err))
  | Except.ok t =>
    match E.Execute t data with
    | Except.error err => (none, some ("failed to generate " ++ kind ++ " template: " ++ err))
    | Except.ok out =>
      let (cfg, ast, report) := T.Parse out
      if report.Entries.length > 0 then
        (none, some ("parsing generated CLC: " ++ report.toString))
      else
        let (ignCfg, report) := T.Convert cfg platformEC2 ast
        if report.Entries.length > 0 then
          (none, some ("converting parsed CLC into Ignition: " ++ report.toString))
        else
          match T.Marshal ignCfg with
          | Except.error err =>
            (none, some ("marshalling generated Ignition config into JSON: " ++ err))
          | Except.ok userData => (some userData, none)

end Cloudinit

/-! ## Lists of KubeadmControlPlane -/

/-- The newer-schema list `v1alpha4.KubeadmControlPlaneList`; `LM` is its list metadata. -/
structure v1alpha4.KubeadmControlPlaneList (LM M I K S T : Type) where
  ListMeta : LM
  Items : List (v1alpha4.KubeadmControlPlane M I K S T)
  deriving DecidableEq, Repr

/-- The generated structural mappings between the two list types, which conversion.go calls
and which are declared outside the sources. `OldList` is the older-schema list type. -/
structure ListConversionFuncs (OldList LM M I K S T : Type) where
  Convert_v1alpha3_KubeadmControlPlaneList_To_v1alpha4_KubeadmControlPlaneList :
    OldList → v1alpha4.KubeadmControlPlaneList LM M I K S T →
      v1alpha4.KubeadmControlPlaneList LM M I K S T × Option String
  Convert_v1alpha4_KubeadmControlPlaneList_To_v1alpha3_KubeadmControlPlaneList :
    v1alpha4.KubeadmControlPlaneList LM M I K S T → OldList → OldList × Option String

namespace v1alpha3

section ListMethods

variable {OldList LM M I K S T : Type}

/-- The method `(src *KubeadmControlPlaneList) ConvertTo` of conversion.go. -/
def KubeadmControlPlaneList.ConvertTo (D : ListConversionFuncs OldList LM M I K S T)
    (src : OldList) (dest : v1alpha4.KubeadmControlPlaneList LM M I K S T) :
    v1alpha4.KubeadmControlPlaneList LM M I K S T × Option String :=
  D.Convert_v1alpha3_KubeadmControlPlaneList_To_v1alpha4_KubeadmControlPlaneList src dest

/-- The method `(dest *KubeadmControlPlaneList) ConvertFrom` of conversion.go. -/
def KubeadmControlPlaneList.ConvertFrom (D : ListConversionFuncs OldList LM M I K S T)
    (dest : OldList) (src : v1alpha4.KubeadmControlPlaneList LM M I K S T) :
    OldList × Option String :=
  D.Convert_v1alpha4_KubeadmControlPlaneList_To_v1alpha3_KubeadmControlPlaneList src dest

end ListMethods

/-- Modelled from the spec: the older-schema list `v1alpha3.KubeadmControlPlaneList`, whose
type declaration is outside the sources. -/
structure KubeadmControlPlaneList (LM M I K S T : Type) where
  ListMeta : LM
  Items : List (KubeadmControlPlane M I K S T)
  deriving DecidableEq, Repr

/-- Modelled from the spec: the zero value of the older-schema resource, into which a list
mapping converts each item. -/
def KubeadmControlPlane.zero {M I K S T : Type} [Inhabited M] [Inhabited I] [Inhabited K]
    [Inhabited S] [Inhabited T] : KubeadmControlPlane M I K S T :=
  ⟨⟨default, none⟩, ⟨⟨default, default⟩, default⟩, default⟩

section SpecListModel

variable {LM M I K S T : Type} [Inhabited M] [Inhabited I] [Inhabited K] [Inhabited S]
  [Inhabited T]

/-- Modelled from the spec: the generated structural mapping of the older list to the newer
list, absent from the sources: "List-valued resources convert element-wise with no additional
semantics". The list metadata is copied and every item is mapped, in order, into a fresh
destination by the structural mapping of the resource. -/
def Convert_v1alpha3_KubeadmControlPlaneList_To_v1alpha4_KubeadmControlPlaneList
    (src : KubeadmControlPlaneList LM M I K S T)
    (_dest : v1alpha4.KubeadmControlPlaneList LM M I K S T) :
    v1alpha4.KubeadmControlPlaneList LM M I K S T × Option String :=
  ({ ListMeta := src.ListMeta
     Items := src.Items.map (fun item =>
      (Convert_v1alpha3_KubeadmControlPlane_To_v1alpha4_KubeadmControlPlane item
        v1alpha4.KubeadmControlPlane.zero).1) }, none)

/-- Modelled from the spec: the generated structural mapping of the newer list to the older
list, absent from the sources; element-wise like the mapping above. -/
def Convert_v1alpha4_KubeadmControlPlaneList_To_v1alpha3_KubeadmControlPlaneList
    (src : v1alpha4.KubeadmControlPlaneList LM M I K S T)
    (_dest : KubeadmControlPlaneList LM M I K S T) :
    KubeadmControlPlaneList LM M I K S T × Option String :=
  ({ ListMeta := src.ListMeta
     Items := src.Items.map (fun item =>
      (Convert_v1alpha4_KubeadmControlPlane_To_v1alpha3_KubeadmControlPlane item
        KubeadmControlPlane.zero).1) }, none)

/-- Modelled from the spec: the two list mappings assembled for the list methods. -/
def specListFuncs :
    ListConversionFuncs (KubeadmControlPlaneList LM M I K S T) LM M I K S T where
  Convert_v1alpha3_KubeadmControlPlaneList_To_v1alpha4_KubeadmControlPlaneList :=
    Convert_v1alpha3_KubeadmControlPlaneList_To_v1alpha4_KubeadmControlPlaneList
  Convert_v1alpha4_KubeadmControlPlaneList_To_v1alpha3_KubeadmControlPlaneList :=
    Convert_v1alpha4_KubeadmControlPlaneList_To_v1alpha3_KubeadmControlPlaneList

end SpecListModel

end v1alpha3

/-! ## Further helpers and concrete instances -/

/-- Join lists of characters with a separator, the character-level form of `strings.Join`. -/
def joinChars : List (List Char) → List Char → List Char
  | [], _ => []
  | [s], _ => s
  | s :: t :: rest, sep => s ++ sep ++ joinChars (t :: rest) sep

/-- The lines of a text: `strings.Split text "\n"`. -/
def lines (text : String) : List String :=
  strings.Split text '\n'

/-- The entry of one file in the rendered text, without the line break that precedes it. -/
def clcFileEntry (f : File) : String :=
  "  - path: " ++ f.Path ++ "\n    " ++
  (if f.Permissions ≠ "" then "mode: " ++ f.Permissions ++ "\n    " else "") ++
  "contents:\n      inline: |\n" ++ templateYAMLIndent 8 f.Content

/-- A small template engine: a template is its own text, and executing it appends the data
to the text. A template text starting with `{` does not parse. -/
def demoTemplates : TemplateFuncs String String where
  Parse _ tpl :=
    match tpl.data with
    | '\x7b' :: _ => Except.error "unexpected \x7b"
    | _ => Except.ok tpl
  Execute t data := Except.ok (t ++ data)

/-- The helper functions of the list methods for the concrete resources. -/
def demoListFuncs :
    ListConversionFuncs
      (v1alpha3.KubeadmControlPlaneList String String (Option String) Bool Bool Bool)
      String String (Option String) Bool Bool Bool :=
  v1alpha3.specListFuncs

/-- An older-schema list with one item whose snapshot deserializes. -/
def demoSpokeList :
    v1alpha3.KubeadmControlPlaneList String String (Option String) Bool Bool Bool :=
  { ListMeta := "list", Items := [demoSpokeSnapshot] }

/-- A newer-schema list with one item that holds an `Ignition` value. -/
def demoHubList : v1alpha4.KubeadmControlPlaneList String String (Option String) Bool Bool Bool :=
  { ListMeta := "list", Items := [demoHub] }

/-! ## Properties of the rendering pipeline -/

section PipelineProperties

variable {Clc Ast U L F : Type}

/-- The text of a report with at least one entry is not empty. -/
theorem Report.toString_ne_empty (r : Report) (h : r.Entries ≠ []) : r.toString ≠ "" := by
  obtain ⟨entries⟩ := r
  cases entries with
  | nil => exact absurd rfl h
  | cons e es =>
    have hk : e.Kind.toString.data ≠ [] := by cases e.Kind <;> decide
    have hd : (Report.toString ⟨e :: es⟩).data ≠ [] := by
      cases es with
      | nil =>
        simp only [Report.toString, List.map, joinLines, Entry.toString, String.data_append]
        simp [hk]
      | cons e2 es2 =>
        simp only [Report.toString, List.map, joinLines, Entry.toString, String.data_append]
        simp [hk]
    intro hs
    rw [hs] at hd
    exact hd rfl

/-- A report is free of fatal entries after a merge exactly when both parts are. -/
theorem Report.IsFatal_Merge (r child : Report) :
    (r.Merge child).IsFatal = (r.IsFatal || child.IsFatal) := by
  simp [Report.IsFatal, Report.Merge, List.any_append]

/-- The three outcomes of `clcToIgnition`, in terms of the two stages. -/
theorem clcToIgnition_eq (T : Transpiler Clc Ast U L F) (data : String) (strict : Bool) :
    clcToIgnition T data strict =
      if (decide ((T.Parse data).2.2.Entries.length > 0) && strict) ||
          (T.Parse data).2.2.IsFatal then
        (Config.zero, "",
          some ("error parsing Container Linux Config: " ++ (T.Parse data).2.2.toString))
      else if (decide ((T.Convert (T.Parse data).1 "" (T.Parse data).2.1).2.Entries.length > 0)
            && strict) || (T.Convert (T.Parse data).1 "" (T.Parse data).2.1).2.IsFatal then
        (Config.zero, "",
          some ("error converting to Ignition: " ++
            (T.Convert (T.Parse data).1 "" (T.Parse data).2.1).2.toString))
      else (T.ignition data, (T.diagnostics data).toString, none) := by
  rcases hp : T.Parse data with ⟨clc, ast, reports⟩
  rcases hc : T.Convert clc "" ast with ⟨ign, report⟩
  simp only [clcToIgnition, Transpiler.ignition, Transpiler.diagnostics, hp, hc]

/-- In strict mode `clcToIgnition` succeeds exactly when the text produces no diagnostic. -/
theorem clcToIgnition_strict_ok_iff (T : Transpiler Clc Ast U L F) (data : String) :
    (clcToIgnition T data true).2.2 = none ↔ (T.diagnostics data).Entries = [] := by
  rw [clcToIgnition_eq]
  simp only [Transpiler.diagnostics, Report.Merge]
  cases h1 : (T.Parse data).2.2.Entries <;>
    cases h2 : (T.Convert (T.Parse data).1 "" (T.Parse data).2.1).2.Entries <;>
    simp [Report.IsFatal, h1, h2]

/-- In lenient mode `clcToIgnition` succeeds exactly when the text produces no fatal
diagnostic. -/
theorem clcToIgnition_lenient_ok_iff (T : Transpiler Clc Ast U L F) (data : String) :
    (clcToIgnition T data false).2.2 = none ↔ (T.diagnostics data).IsFatal = false := by
  rw [clcToIgnition_eq]
  simp only [Transpiler.diagnostics, Report.IsFatal_Merge]
  cases h1 : (T.Parse data).2.2.IsFatal <;>
    cases h2 : (T.Convert (T.Parse data).1 "" (T.Parse data).2.1).2.IsFatal <;> simp

/-- A successful `clcToIgnition` returns the converted config and the text of all the
diagnostics of the input. -/
theorem clcToIgnition_of_ok (T : Transpiler Clc Ast U L F) (data : String) (strict : Bool)
    (h : (clcToIgnition T data strict).2.2 = none) :
    clcToIgnition T data strict = (T.ignition data, (T.diagnostics data).toString, none) := by
  rw [clcToIgnition_eq] at h ⊢
  split at h
  · simp at h
  · split at h
    · simp at h
    · rename_i h1 h2
      rw [if_neg h1, if_neg h2]

/-- The results of `buildIgnitionConfig` once the base text has converted. -/
theorem buildIgnitionConfig_of_base (T : Transpiler Clc Ast U L F) (baseCLC : String)
    (clc : ContainerLinuxConfig) (h : (clcToIgnition T baseCLC true).2.2 = none) :
    buildIgnitionConfig T baseCLC clc =
      if clc.AdditionalConfig ≠ "" then
        match clcToIgnition T clc.AdditionalConfig clc.Strict with
        | (_, _, some err) => (none, "", some ("converting additional CLC to Ignition: " ++ err))
        | (additionalIgn, warnings, none) =>
          match T.Marshal (Append (T.ignition baseCLC) additionalIgn) with
          | Except.error err =>
            (none, "", some ("marshaling generated Ignition config into JSON: " ++ err))
          | Except.ok userData => (some userData, warnings, none)
      else
        match T.Marshal (T.ignition baseCLC) with
        | Except.error err =>
          (none, "", some ("marshaling generated Ignition config into JSON: " ++ err))
        | Except.ok userData => (some userData, "", none) := by
  have hb := clcToIgnition_of_ok T baseCLC true h
  unfold buildIgnitionConfig
  rw [hb]
  by_cases hne : clc.AdditionalConfig = ""
  · simp [hne]
  · simp only [ne_eq, hne, not_false_eq_true, if_true]
    rcases hadd : clcToIgnition T clc.AdditionalConfig clc.Strict with ⟨a, w, e⟩
    cases e <;> simp

/-- When the base text does not convert in strict mode `buildIgnitionConfig` fails. -/
theorem buildIgnitionConfig_of_base_error (T : Transpiler Clc Ast U L F) (baseCLC : String)
    (clc : ContainerLinuxConfig) (err : String)
    (h : (clcToIgnition T baseCLC true).2.2 = some err) :
    buildIgnitionConfig T baseCLC clc =
      (none, "", some ("converting generated CLC to Ignition: " ++ err)) := by
  unfold buildIgnitionConfig
  rcases hb : clcToIgnition T baseCLC true with ⟨a, w, e⟩
  rw [hb] at h
  simp only at h
  subst h
  rfl

/-- With a non-nil base input that renders to `baseCLC`, `Render` is `buildIgnitionConfig`
on that text, its error wrapped. -/
theorem Render_of_renderCLC (T : Transpiler Clc Ast U L F) (input : BaseUserData)
    (clc : ContainerLinuxConfig) (kubeadmConfig baseCLC : String)
    (hrender : renderCLC (some input) kubeadmConfig = (some baseCLC, none)) :
    Render T (some input) (some clc) kubeadmConfig =
      match buildIgnitionConfig T baseCLC clc with
      | (_, _, some err) => (none, "", some ("building Ignition config: " ++ err))
      | (userData, warnings, none) => (userData, warnings, none) := by
  simp only [Render, hrender, Option.getD]

/-- The serializer of the small transpiler never yields an empty text. -/
theorem demoTranspiler_Marshal_ne_empty (c : Config String String String) (b : String)
    (h : demoTranspiler.Marshal c = Except.ok b) : b ≠ "" := by
  simp only [demoTranspiler, Except.ok.injEq] at h
  intro hb
  have hd : b.data ≠ [] := by
    rw [← h]
    simp [String.data_append]
  rw [hb] at hd
  exact hd rfl

/-- C1. `clcToIgnition` returns an error exactly when the parse report is fatal, or strict is
set and the parse report has an entry, or the conversion report is fatal, or strict is set and
the conversion report has an entry; in every other case it returns the converted config, the
text of the merged report and no error. -/
theorem clcToIgnition_error_iff (T : Transpiler Clc Ast U L F) (data : String) (strict : Bool) :
    let parsed := T.Parse data
    let converted := T.Convert parsed.1 "" parsed.2.1
    let aborts : Prop :=
      parsed.2.2.IsFatal = true ∨ (strict = true ∧ 0 < parsed.2.2.Entries.length) ∨
      converted.2.IsFatal = true ∨ (strict = true ∧ 0 < converted.2.Entries.length)
    ((clcToIgnition T data strict).2.2 ≠ none ↔ aborts) ∧
    (aborts ∨
      clcToIgnition T data strict =
        (converted.1, (parsed.2.2.Merge converted.2).toString, none)) := by
  intro parsed converted aborts
  rcases hp : T.Parse data with ⟨clc, ast, reports⟩
  rcases hc : T.Convert clc "" ast with ⟨ign, report⟩
  have hparsed : parsed = (clc, ast, reports) := hp
  have hconv : converted = (ign, report) := by
    show T.Convert parsed.1 "" parsed.2.1 = _
    rw [hparsed]; exact hc
  simp only [aborts, hparsed, hconv, clcToIgnition, hp, hc]
  cases strict <;> cases hf : reports.IsFatal <;> cases hg : report.IsFatal <;>
    by_cases h1 : 0 < reports.Entries.length <;>
    by_cases h2 : 0 < report.Entries.length <;> simp [h1, h2]

/-- C2. For a non-nil base input whose generated text `baseCLC` produces no diagnostic, and
an additional config whose report holds at least one diagnostic and no fatal one, `Render`
with `Strict = true` returns an error, while `Render` with `Strict = false` returns no error,
the serialization of the merged configuration and the text of the additional report, both
non-empty. The report of the additional config is the one `buildIgnitionConfig` has for it
(`additionalReport`). The serializer `json.Marshal` is a parameter: it is assumed to
serialize the merged configuration, and never to yield an empty text. -/
theorem Render_strict_elevates_warnings (T : Transpiler Clc Ast U L F) (input : BaseUserData)
    (kubeadmConfig additional baseCLC userData : String)
    (hrender : renderCLC (some input) kubeadmConfig = (some baseCLC, none))
    (hclean : (T.diagnostics baseCLC).Entries = [])
    (hwarn : (T.additionalReport additional).Entries ≠ [])
    (hnofatal : (T.additionalReport additional).IsFatal = false)
    (hmarshal : T.Marshal (Append (T.ignition baseCLC) (T.ignition additional)) =
      Except.ok userData)
    (hjson : ∀ c b, T.Marshal c = Except.ok b → b ≠ "") :
    (Render T (some input) (some ⟨additional, true⟩) kubeadmConfig).2.2 ≠ none ∧
    Render T (some input) (some ⟨additional, false⟩) kubeadmConfig =
      (some userData, (T.additionalReport additional).toString, none) ∧
    userData ≠ "" ∧ (T.additionalReport additional).toString ≠ "" := by
  have hne : additional ≠ "" := by
    intro h
    apply hwarn
    simp [Transpiler.additionalReport, h]
  have hrep : T.additionalReport additional = T.diagnostics additional := by
    simp [Transpiler.additionalReport, hne]
  rw [hrep] at hwarn hnofatal ⊢
  have hbase : (clcToIgnition T baseCLC true).2.2 = none :=
    (clcToIgnition_strict_ok_iff T baseCLC).2 hclean
  refine ⟨?_, ?_, hjson _ _ hmarshal, Report.toString_ne_empty _ hwarn⟩
  · rw [Render_of_renderCLC T input _ kubeadmConfig baseCLC hrender,
      buildIgnitionConfig_of_base T baseCLC _ hbase]
    simp only [ne_eq, hne, not_false_eq_true, if_true]
    have hstrict : (clcToIgnition T additional true).2.2 ≠ none := fun h =>
      hwarn ((clcToIgnition_strict_ok_iff T additional).1 h)
    rcases hadd : clcToIgnition T additional true with ⟨a, w, e⟩
    rw [hadd] at hstrict
    cases e with
    | none => exact absurd rfl hstrict
    | some err => simp
  · rw [Render_of_renderCLC T input _ kubeadmConfig baseCLC hrender,
      buildIgnitionConfig_of_base T baseCLC _ hbase]
    simp only [ne_eq, hne, not_false_eq_true, if_true]
    have hlenient : (clcToIgnition T additional false).2.2 = none :=
      (clcToIgnition_lenient_ok_iff T additional).2 hnofatal
    rw [clcToIgnition_of_ok T additional false hlenient]
    simp [hmarshal]

/-- The claim C2 at the empty base descriptor of the tests and an additional config that
produces one warning. -/
theorem Render_strict_elevates_warnings_witness :
    (Render demoTranspiler (some demoInput) (some ⟨"?extra", true⟩) "foo").2.2 ≠ none ∧
    Render demoTranspiler (some demoInput) (some ⟨"?extra", false⟩) "foo" =
      (some ("[" ++
          strings.Join [(renderCLC (some demoInput) "foo").1.getD "", "?extra"] "," ++ "]"),
        (demoTranspiler.additionalReport "?extra").toString, none) ∧
    "[" ++ strings.Join [(renderCLC (some demoInput) "foo").1.getD "", "?extra"] "," ++ "]" ≠ "" ∧
    (demoTranspiler.additionalReport "?extra").toString ≠ "" :=
  Render_strict_elevates_warnings demoTranspiler demoInput "foo" "?extra"
    ((renderCLC (some demoInput) "foo").1.getD "")
    ("[" ++ strings.Join [(renderCLC (some demoInput) "foo").1.getD "", "?extra"] "," ++
      "]")
    rfl (by decide) (by decide) (by decide) rfl
    demoTranspiler_Marshal_ne_empty

/-- C7. `Render` called with a nil base input, or with a nil CLC config, returns an error,
nil bytes and an empty warnings text. -/
theorem Render_nil_argument (T : Transpiler Clc Ast U L F) (input : Option BaseUserData)
    (clc : ContainerLinuxConfig) (kubeadmConfig : String) :
    (∃ err, Render T none (some clc) kubeadmConfig = (none, "", some err)) ∧
    (∃ err, Render T input none kubeadmConfig = (none, "", some err)) :=
  ⟨⟨_, rfl⟩, ⟨_, rfl⟩⟩

/-- C8. When the base text converts cleanly to `ign`, the additional config is the empty
string and `json.Marshal` serializes `ign` to `userData`, `buildIgnitionConfig` returns
exactly `userData`, an empty warnings text and no error, whatever the strict flag. -/
theorem buildIgnitionConfig_empty_additional (T : Transpiler Clc Ast U L F) (baseCLC : String)
    (clc : ContainerLinuxConfig) (ign : Config U L F) (warnings userData : String)
    (hbase : clcToIgnition T baseCLC true = (ign, warnings, none))
    (hempty : clc.AdditionalConfig = "")
    (hmarshal : T.Marshal ign = Except.ok userData) :
    buildIgnitionConfig T baseCLC clc = (some userData, "", none) := by
  have hok : (clcToIgnition T baseCLC true).2.2 = none := by rw [hbase]
  have hign : T.ignition baseCLC = ign := by
    have h := clcToIgnition_of_ok T baseCLC true hok
    rw [hbase] at h
    exact (congrArg Prod.fst h).symm
  rw [buildIgnitionConfig_of_base T baseCLC clc hok, hign]
  simp [hempty, hmarshal]

/-- The claim C8 at a concrete base text, with the strict flag set. -/
theorem buildIgnitionConfig_empty_additional_witness :
    buildIgnitionConfig demoTranspiler "base" ⟨"", true⟩ = (some "[base]", "", none) :=
  buildIgnitionConfig_empty_additional demoTranspiler "base" ⟨"", true⟩
    ⟨⟨[]⟩, ⟨["base"], []⟩⟩ "" "[base]" (by decide) rfl rfl

/-- C9. When the base text and a non-empty additional text both convert, the configuration
`buildIgnitionConfig` hands to `json.Marshal` has as files the base files followed by the
additional files, and likewise for links and units; the result is the serialization of that
configuration together with the warnings of the additional text. -/
theorem buildIgnitionConfig_appends (T : Transpiler Clc Ast U L F) (baseCLC : String)
    (clc : ContainerLinuxConfig) (ign additionalIgn : Config U L F)
    (baseWarnings warnings : String)
    (hbase : clcToIgnition T baseCLC true = (ign, baseWarnings, none))
    (hne : clc.AdditionalConfig ≠ "")
    (hadd : clcToIgnition T clc.AdditionalConfig clc.Strict = (additionalIgn, warnings, none)) :
    ∃ merged : Config U L F,
      merged.Storage.Files = ign.Storage.Files ++ additionalIgn.Storage.Files ∧
      merged.Storage.Links = ign.Storage.Links ++ additionalIgn.Storage.Links ∧
      merged.Systemd.Units = ign.Systemd.Units ++ additionalIgn.Systemd.Units ∧
      buildIgnitionConfig T baseCLC clc =
        match T.Marshal merged with
        | Except.error err =>
          (none, "", some ("marshaling generated Ignition config into JSON: " ++ err))
        | Except.ok userData => (some userData, warnings, none) := by
  have hok : (clcToIgnition T baseCLC true).2.2 = none := by rw [hbase]
  have hign : T.ignition baseCLC = ign := by
    have h := clcToIgnition_of_ok T baseCLC true hok
    rw [hbase] at h
    exact (congrArg Prod.fst h).symm
  refine ⟨Append ign additionalIgn, rfl, rfl, rfl, ?_⟩
  rw [buildIgnitionConfig_of_base T baseCLC clc hok, hign, if_pos hne, hadd]

/-- The claim C9 at a concrete base text and additional text. -/
theorem buildIgnitionConfig_appends_witness :
    ∃ merged : Config String String String,
      merged.Storage.Files = ["base"] ++ ["extra"] ∧
      merged.Storage.Links = [] ++ [] ∧
      merged.Systemd.Units = [] ++ [] ∧
      buildIgnitionConfig demoTranspiler "base" ⟨"extra", false⟩ =
        match demoTranspiler.Marshal merged with
        | Except.error err =>
          (none, "", some ("marshaling generated Ignition config into JSON: " ++ err))
        | Except.ok userData => (some userData, "", none) :=
  buildIgnitionConfig_appends demoTranspiler "base" ⟨"extra", false⟩
    ⟨⟨[]⟩, ⟨["base"], []⟩⟩ ⟨⟨[]⟩, ⟨["extra"], []⟩⟩ "" "" (by decide) (by decide) (by decide)

/-- C10. Whenever `buildIgnitionConfig` succeeds, the warnings text it returns is the text
of the base diagnostics followed by the additional diagnostics, each being the parse-stage
entries followed by the conversion-stage entries; an empty additional config is not converted
and contributes no entry. The base diagnostics are then empty. -/
theorem buildIgnitionConfig_warnings (T : Transpiler Clc Ast U L F) (baseCLC : String)
    (clc : ContainerLinuxConfig) (hok : (buildIgnitionConfig T baseCLC clc).2.2 = none) :
    (buildIgnitionConfig T baseCLC clc).2.1 =
      ((T.diagnostics baseCLC).Merge
        (if clc.AdditionalConfig ≠ "" then T.diagnostics clc.AdditionalConfig
          else ⟨[]⟩)).toString ∧
    (T.diagnostics baseCLC).Entries = [] := by
  have hbase : (clcToIgnition T baseCLC true).2.2 = none := by
    cases hb : (clcToIgnition T baseCLC true).2.2 with
    | none => rfl
    | some err =>
      rw [buildIgnitionConfig_of_base_error T baseCLC clc err hb] at hok
      simp at hok
  have hnil := (clcToIgnition_strict_ok_iff T baseCLC).1 hbase
  refine ⟨?_, hnil⟩
  have hmerge : ∀ r : Report, (T.diagnostics baseCLC).Merge r = r := by
    intro r
    simp [Report.Merge, hnil]
  rw [hmerge]
  rw [buildIgnitionConfig_of_base T baseCLC clc hbase] at hok ⊢
  by_cases hne : clc.AdditionalConfig = ""
  · simp only [ne_eq, hne, not_true_eq_false, if_false] at hok ⊢
    cases hm : T.Marshal (T.ignition baseCLC) with
    | error err => rw [hm] at hok; simp at hok
    | ok userData => simp [Report.toString, joinLines]
  · simp only [ne_eq, hne, not_false_eq_true, if_true] at hok ⊢
    cases he : (clcToIgnition T clc.AdditionalConfig clc.Strict).2.2 with
    | some err =>
      rcases hadd : clcToIgnition T clc.AdditionalConfig clc.Strict with ⟨a, w, e⟩
      rw [hadd] at he hok
      simp only at he
      subst he
      simp at hok
    | none =>
      rw [clcToIgnition_of_ok T clc.AdditionalConfig clc.Strict he] at hok ⊢
      cases hm : T.Marshal (Append (T.ignition baseCLC) (T.ignition clc.AdditionalConfig)) with
      | error err => simp [hm] at hok
      | ok userData => simp [hm]

/-- The claim C10 at a concrete additional text that produces one warning. -/
theorem buildIgnitionConfig_warnings_witness :
    (buildIgnitionConfig demoTranspiler "base" ⟨"?extra", false⟩).2.1 =
      ((demoTranspiler.diagnostics "base").Merge
        (if (⟨"?extra", false⟩ : ContainerLinuxConfig).AdditionalConfig ≠ ""
          then demoTranspiler.diagnostics "?extra" else ⟨[]⟩)).toString ∧
    (demoTranspiler.diagnostics "base").Entries = [] :=
  buildIgnitionConfig_warnings demoTranspiler "base" ⟨"?extra", false⟩ (by decide)

end PipelineProperties

/-! ## Properties of the KubeadmControlPlane conversion -/

section ConversionProperties

open v1alpha3

variable {Old M I K S T : Type} [Inhabited M] [Inhabited I] [Inhabited K] [Inhabited S]
  [Inhabited T]

/-- C3. Converting a newer-schema resource `v` down with `ConvertFrom` and up again with
`ConvertTo` succeeds and gives back `v` on every field, `Spec.KubeadmConfigSpec.Ignition`
included, whatever the two destinations held before. The structural mappings and the
snapshot helpers are the ones modelled from the spec; the serializer is a parameter, assumed
to serialize the data of `v` and to read its own output back. -/
theorem ConvertFrom_ConvertTo_roundtrip
    (C : Codec (v1alpha4.KubeadmControlPlaneSpec I K S × T))
    (v : v1alpha4.KubeadmControlPlane M I K S T) (older : KubeadmControlPlane M I K S T)
    (newer : v1alpha4.KubeadmControlPlane M I K S T) (data : String)
    (hmarshal : C.Marshal (v.Spec, v.Status) = Except.ok data)
    (hunmarshal : C.Unmarshal data = Except.ok (v.Spec, v.Status)) :
    (KubeadmControlPlane.ConvertFrom (specFuncs C) older v).2 = none ∧
    KubeadmControlPlane.ConvertTo (specFuncs C)
      (KubeadmControlPlane.ConvertFrom (specFuncs C) older v).1 newer = (v, none) := by
  have hfrom : KubeadmControlPlane.ConvertFrom (specFuncs C) older v =
      ({ ObjectMeta := { Fields := v.ObjectMeta, Snapshot := some data }
         Spec :=
          { KubeadmConfigSpec :=
              { Ignition := v.Spec.KubeadmConfigSpec.Ignition
                Other := v.Spec.KubeadmConfigSpec.Other }
            Other := v.Spec.Other }
         Status := v.Status }, none) := by
    simp [KubeadmControlPlane.ConvertFrom, specFuncs, MarshalData, hmarshal,
      Convert_v1alpha4_KubeadmControlPlane_To_v1alpha3_KubeadmControlPlane]
  rw [hfrom]
  refine ⟨rfl, ?_⟩
  simp [KubeadmControlPlane.ConvertTo, specFuncs, UnmarshalData, hunmarshal,
    Convert_v1alpha3_KubeadmControlPlane_To_v1alpha4_KubeadmControlPlane]

/-- The claim C3 at a concrete resource with an `Ignition` value, converted into
destinations that held other values. -/
theorem ConvertFrom_ConvertTo_roundtrip_witness :
    (KubeadmControlPlane.ConvertFrom (specFuncs demoCodec) demoSpokeBroken demoHub).2 = none ∧
    KubeadmControlPlane.ConvertTo (specFuncs demoCodec)
      (KubeadmControlPlane.ConvertFrom (specFuncs demoCodec) demoSpokeBroken demoHub).1
      demoHubStale = (demoHub, none) :=
  ConvertFrom_ConvertTo_roundtrip demoCodec demoHub demoSpokeBroken demoHubStale "tft+strict"
    rfl rfl

/-- C4. When the structural mapping of `src` succeeds and `src` carries no snapshot
(`UnmarshalData` answers `(false, nil)`), `ConvertTo` returns no error and the destination is
exactly the result of the structural mapping. -/
theorem ConvertTo_without_snapshot (D : ConversionFuncs Old M I K S T) (src : Old)
    (dest mapped restored : v1alpha4.KubeadmControlPlane M I K S T)
    (hmap : D.Convert_v1alpha3_KubeadmControlPlane_To_v1alpha4_KubeadmControlPlane src dest =
      (mapped, none))
    (hsnap : D.UnmarshalData src v1alpha4.KubeadmControlPlane.zero = (restored, false, none)) :
    KubeadmControlPlane.ConvertTo D src dest = (mapped, none) := by
  simp [KubeadmControlPlane.ConvertTo, hmap, hsnap]

/-- The claim C4 at a concrete resource without a snapshot: `Ignition` stays as the
structural mapping left it. -/
theorem ConvertTo_without_snapshot_witness :
    KubeadmControlPlane.ConvertTo demoFuncs demoSpokePlain demoHubStale =
      ({ ObjectMeta := "kcp"
         Spec :=
          { KubeadmConfigSpec := { Ignition := some "plain", Other := true }, Other := false }
         Status := true }, none) :=
  ConvertTo_without_snapshot demoFuncs demoSpokePlain demoHubStale _
    v1alpha4.KubeadmControlPlane.zero rfl rfl

/-- C5, as amended. When the structural mapping of `src` succeeds and the snapshot of `src`
fails to deserialize (`UnmarshalData` answers with an error), `ConvertTo` returns that error;
the destination is the result of the structural mapping, with nothing overlaid. -/
theorem ConvertTo_snapshot_error (D : ConversionFuncs Old M I K S T) (src : Old)
    (dest mapped restored : v1alpha4.KubeadmControlPlane M I K S T) (ok : Bool) (err : String)
    (hmap : D.Convert_v1alpha3_KubeadmControlPlane_To_v1alpha4_KubeadmControlPlane src dest =
      (mapped, none))
    (hsnap : D.UnmarshalData src v1alpha4.KubeadmControlPlane.zero = (restored, ok, some err)) :
    KubeadmControlPlane.ConvertTo D src dest = (mapped, some err) := by
  simp [KubeadmControlPlane.ConvertTo, hmap, hsnap]

/-- The amended claim C5 at a concrete resource whose snapshot is not valid. -/
theorem ConvertTo_snapshot_error_witness :
    KubeadmControlPlane.ConvertTo demoFuncs demoSpokeBroken demoHubStale =
      ({ ObjectMeta := "kcp"
         Spec :=
          { KubeadmConfigSpec := { Ignition := some "plain", Other := true }, Other := false }
         Status := true }, some "invalid character") :=
  ConvertTo_snapshot_error demoFuncs demoSpokeBroken demoHubStale _
    v1alpha4.KubeadmControlPlane.zero false "invalid character" rfl rfl

/-- C5 as stated fails: the resource `demoSpokeBroken` carries a snapshot, the snapshot does
not deserialize, the structural mapping succeeds, and `ConvertTo` returns an error. -/
theorem ConvertTo_broken_snapshot_is_error :
    demoSpokeBroken.ObjectMeta.Snapshot = some "not json" ∧
    demoCodec.Unmarshal "not json" = Except.error "invalid character" ∧
    (demoFuncs.Convert_v1alpha3_KubeadmControlPlane_To_v1alpha4_KubeadmControlPlane
      demoSpokeBroken demoHubStale).2 = none ∧
    (KubeadmControlPlane.ConvertTo demoFuncs demoSpokeBroken demoHubStale).2 =
      some "invalid character" :=
  ⟨rfl, rfl, rfl, rfl⟩

/-- C6. When the structural mapping of `src` succeeds and the snapshot of `src` deserializes
to `restored`, `ConvertTo` returns no error and a destination that carries the structurally
mapped value in the metadata, the status and the remaining fields of `Spec` and of
`Spec.KubeadmConfigSpec`, whatever `restored` holds there, and the value of `restored` in
`Spec.KubeadmConfigSpec.Ignition`. -/
theorem ConvertTo_overlays_only_Ignition (D : ConversionFuncs Old M I K S T) (src : Old)
    (dest mapped restored : v1alpha4.KubeadmControlPlane M I K S T)
    (hmap : D.Convert_v1alpha3_KubeadmControlPlane_To_v1alpha4_KubeadmControlPlane src dest =
      (mapped, none))
    (hsnap : D.UnmarshalData src v1alpha4.KubeadmControlPlane.zero = (restored, true, none)) :
    (KubeadmControlPlane.ConvertTo D src dest).2 = none ∧
    (KubeadmControlPlane.ConvertTo D src dest).1.ObjectMeta = mapped.ObjectMeta ∧
    (KubeadmControlPlane.ConvertTo D src dest).1.Status = mapped.Status ∧
    (KubeadmControlPlane.ConvertTo D src dest).1.Spec.Other = mapped.Spec.Other ∧
    (KubeadmControlPlane.ConvertTo D src dest).1.Spec.KubeadmConfigSpec.Other =
      mapped.Spec.KubeadmConfigSpec.Other ∧
    (KubeadmControlPlane.ConvertTo D src dest).1.Spec.KubeadmConfigSpec.Ignition =
      restored.Spec.KubeadmConfigSpec.Ignition := by
  simp [KubeadmControlPlane.ConvertTo, hmap, hsnap]

/-- The claim C6 at a concrete resource whose snapshot `"ftf+strict"` holds other values than
the resource in every field: only `Ignition` is taken from the snapshot. -/
theorem ConvertTo_overlays_only_Ignition_witness :
    (KubeadmControlPlane.ConvertTo demoFuncs demoSpokeSnapshot demoHubStale).2 = none ∧
    (KubeadmControlPlane.ConvertTo demoFuncs demoSpokeSnapshot demoHubStale).1.ObjectMeta =
      "kcp" ∧
    (KubeadmControlPlane.ConvertTo demoFuncs demoSpokeSnapshot demoHubStale).1.Status = true ∧
    (KubeadmControlPlane.ConvertTo demoFuncs demoSpokeSnapshot demoHubStale).1.Spec.Other =
      false ∧
    (KubeadmControlPlane.ConvertTo demoFuncs demoSpokeSnapshot
      demoHubStale).1.Spec.KubeadmConfigSpec.Other = true ∧
    (KubeadmControlPlane.ConvertTo demoFuncs demoSpokeSnapshot
      demoHubStale).1.Spec.KubeadmConfigSpec.Ignition = some "strict" :=
  ConvertTo_overlays_only_Ignition demoFuncs demoSpokeSnapshot demoHubStale
    { ObjectMeta := "kcp"
      Spec := { KubeadmConfigSpec := { Ignition := some "edited", Other := true }, Other := false }
      Status := true }
    { ObjectMeta := ""
      Spec := { KubeadmConfigSpec := { Ignition := some "strict", Other := false }, Other := true }
      Status := false }
    rfl rfl

end ConversionProperties

/-! ## Properties of `templateYAMLIndent` -/

section IndentProperties

/-- Splitting never yields the empty list. -/
theorem splitChars_ne_nil (sep : Char) (cs : List Char) : splitChars sep cs ≠ [] := by
  induction cs with
  | nil => simp [splitChars]
  | cons c cs ih =>
    unfold splitChars
    split
    · simp
    · split <;> simp

/-- A text without the separator is a single piece. -/
theorem splitChars_of_not_mem (sep : Char) (cs : List Char) (h : sep ∉ cs) :
    splitChars sep cs = [cs] := by
  induction cs with
  | nil => rfl
  | cons c cs ih =>
    have hc : ¬ c = sep := fun e => h (by simp [e])
    have hcs : sep ∉ cs := fun e => h (List.mem_cons_of_mem _ e)
    simp [splitChars, hc, ih hcs]

/-- No piece of a split contains the separator. -/
theorem not_mem_of_mem_splitChars (sep : Char) (cs l : List Char)
    (h : l ∈ splitChars sep cs) : sep ∉ l := by
  induction cs generalizing l with
  | nil =>
    simp [splitChars] at h
    simp [h]
  | cons c cs ih =>
    unfold splitChars at h
    split at h
    · rcases List.mem_cons.1 h with h | h
      · simp [h]
      · exact ih l h
    · rename_i hc
      split at h
      · rename_i hnil
        exact absurd hnil (splitChars_ne_nil sep cs)
      · rename_i l0 ls hsplit
        rcases List.mem_cons.1 h with h | h
        · subst h
          have h0 : sep ∉ l0 := ih l0 (by rw [hsplit]; exact List.mem_cons_self _ _)
          intro hmem
          rcases List.mem_cons.1 hmem with e | e
          · exact hc e.symm
          · exact h0 e
        · exact ih l (by rw [hsplit]; exact List.mem_cons_of_mem _ h)

/-- Splitting a text at a separator splits the part before it and the part after it. -/
theorem splitChars_append_sep (sep : Char) (a b : List Char) :
    splitChars sep (a ++ sep :: b) = splitChars sep a ++ splitChars sep b := by
  induction a with
  | nil => simp [splitChars]
  | cons c a ih =>
    by_cases hc : c = sep
    · simp [splitChars, hc, ih]
    · have e : splitChars sep (c :: a ++ sep :: b) =
          match splitChars sep (a ++ sep :: b) with
          | [] => [[c]]
          | l :: ls => (c :: l) :: ls := by
        show splitChars sep (c :: (a ++ sep :: b)) = _
        simp only [splitChars, hc, if_false]
      rw [e, ih]
      simp only [splitChars, hc, if_false]
      cases hsplit : splitChars sep a with
      | nil => exact absurd hsplit (splitChars_ne_nil sep a)
      | cons l ls => simp

/-- Joining the pieces of a split with the separator gives the text back. -/
theorem joinChars_splitChars (sep : Char) (cs : List Char) :
    joinChars (splitChars sep cs) [sep] = cs := by
  induction cs with
  | nil => rfl
  | cons c cs ih =>
    by_cases hc : c = sep
    · simp only [splitChars, hc, if_true]
      cases hsplit : splitChars sep cs with
      | nil => exact absurd hsplit (splitChars_ne_nil sep cs)
      | cons l ls =>
        rw [hsplit] at ih
        simp [joinChars, ih]
    · simp only [splitChars, hc, if_false]
      cases hsplit : splitChars sep cs with
      | nil => exact absurd hsplit (splitChars_ne_nil sep cs)
      | cons l ls =>
        rw [hsplit] at ih
        cases ls with
        | nil => simpa [joinChars] using ih
        | cons l2 ls2 =>
          simp only [joinChars] at ih ⊢
          simp [ih]

/-- Splitting a padded join of separator-free pieces gives the padded pieces. -/
theorem splitChars_joinChars (sep : Char) (pad : List Char) (hpad : sep ∉ pad)
    (parts : List (List Char)) (hne : parts ≠ []) (hparts : ∀ p ∈ parts, sep ∉ p) :
    splitChars sep (pad ++ joinChars parts (sep :: pad)) = parts.map (fun p => pad ++ p) := by
  induction parts with
  | nil => exact absurd rfl hne
  | cons p rest ih =>
    have hp : sep ∉ p := hparts p (List.mem_cons_self _ _)
    cases rest with
    | nil =>
      simp only [joinChars, List.map]
      exact splitChars_of_not_mem sep (pad ++ p) (by simp [hpad, hp])
    | cons q rest =>
      have hrest : ∀ x ∈ q :: rest, sep ∉ x := fun x hx => hparts x (List.mem_cons_of_mem _ hx)
      have ih2 := ih (by simp) hrest
      simp only [joinChars, List.map] at ih2 ⊢
      have e : pad ++ (p ++ sep :: pad ++ joinChars (q :: rest) (sep :: pad)) =
          (pad ++ p) ++ sep :: (pad ++ joinChars (q :: rest) (sep :: pad)) := by simp
      rw [e, splitChars_append_sep, ih2,
        splitChars_of_not_mem sep (pad ++ p) (by simp [hpad, hp])]
      simp

/-- Padding the pieces once more is padding them with the longer pad. -/
theorem joinChars_map_pad (sep pa pb : List Char) (parts : List (List Char))
    (hne : parts ≠ []) :
    pa ++ joinChars (parts.map (fun p => pb ++ p)) (sep ++ pa) =
      (pa ++ pb) ++ joinChars parts (sep ++ (pa ++ pb)) := by
  induction parts with
  | nil => exact absurd rfl hne
  | cons p rest ih =>
    cases rest with
    | nil => simp [joinChars]
    | cons q rest =>
      have ih2 := ih (by simp)
      simp only [List.map, joinChars] at ih2 ⊢
      have e : pa ++ (pb ++ p ++ (sep ++ pa) ++
            joinChars ((pb ++ q) :: List.map (fun p => pb ++ p) rest) (sep ++ pa)) =
          pa ++ pb ++ p ++ sep ++
            (pa ++ joinChars ((pb ++ q) :: List.map (fun p => pb ++ p) rest) (sep ++ pa)) := by
        simp
      rw [e, ih2]
      simp

/-- The characters of `strings.Repeat`. -/
theorem strings.Repeat_space_data (n : Nat) :
    (strings.Repeat " " n).data = List.replicate n ' ' := by
  induction n with
  | zero => rfl
  | succ n ih =>
    simp only [strings.Repeat, String.data_append, ih, List.replicate_succ]
    rfl

/-- The characters of `strings.Join`. -/
theorem strings.Join_data (elems : List String) (sep : String) :
    (strings.Join elems sep).data = joinChars (elems.map String.data) sep.data := by
  induction elems with
  | nil => rfl
  | cons s rest ih =>
    cases rest with
    | nil => rfl
    | cons t rest =>
      simp only [strings.Join, List.map, joinChars, String.data_append] at ih ⊢
      rw [ih]

/-- The characters of the pieces of `strings.Split`. -/
theorem strings.Split_map_data (s : String) (sep : Char) :
    (strings.Split s sep).map String.data = splitChars sep s.data := by
  simp [strings.Split, List.map_map, Function.comp_def]

/-- The characters of `templateYAMLIndent`: the pad, then the lines joined by a line break
and the pad. -/
theorem templateYAMLIndent_data (i : Nat) (input : String) :
    (templateYAMLIndent i input).data =
      List.replicate i ' ' ++
        joinChars (splitChars '\n' input.data) ('\n' :: List.replicate i ' ') := by
  simp only [templateYAMLIndent, String.data_append, strings.Join_data,
    strings.Split_map_data, strings.Repeat_space_data]
  rfl

/-- The lines of `templateYAMLIndent i input` are the lines of `input`, each behind `i`
spaces. -/
theorem Split_templateYAMLIndent (i : Nat) (input : String) :
    strings.Split (templateYAMLIndent i input) '\n' =
      (strings.Split input '\n').map (fun line => strings.Repeat " " i ++ line) := by
  have hpad : '\n' ∉ List.replicate i ' ' := by
    intro h
    have := List.eq_of_mem_replicate h
    exact absurd this (by decide)
  have h := splitChars_joinChars '\n' (List.replicate i ' ') hpad (splitChars '\n' input.data)
    (splitChars_ne_nil _ _) (fun p hp => not_mem_of_mem_splitChars _ _ p hp)
  simp only [strings.Split, templateYAMLIndent_data, h, List.map_map]
  apply List.map_congr_left
  intro p _
  apply String.ext
  simp [String.data_append, strings.Repeat_space_data]

/-- The lines of `templateYAMLIndent`, at the level of characters. -/
theorem splitChars_templateYAMLIndent (i : Nat) (input : String) :
    splitChars '\n' (templateYAMLIndent i input).data =
      (splitChars '\n' input.data).map (fun p => List.replicate i ' ' ++ p) := by
  have hpad : '\n' ∉ List.replicate i ' ' := by
    intro h
    have := List.eq_of_mem_replicate h
    exact absurd this (by decide)
  rw [templateYAMLIndent_data]
  exact splitChars_joinChars '\n' (List.replicate i ' ') hpad (splitChars '\n' input.data)
    (splitChars_ne_nil _ _) (fun p hp => not_mem_of_mem_splitChars _ _ p hp)

/-- Joining the lines of a text with line breaks gives the text back. -/
theorem strings.Join_Split (s : String) : strings.Join (strings.Split s '\n') "\n" = s := by
  apply String.ext
  rw [strings.Join_data, strings.Split_map_data]
  exact joinChars_splitChars '\n' s.data

/-- C11. For every indent width `i` and every input, `templateYAMLIndent i input` has as
many lines as `input`, and its `k`-th line is `i` spaces followed by the `k`-th line of
`input`, empty lines included; `templateYAMLIndent 8 "bar"` is eight spaces and `bar`. -/
theorem templateYAMLIndent_lines (i : Nat) (input : String) :
    (strings.Split (templateYAMLIndent i input) '\n').length =
      (strings.Split input '\n').length ∧
    (∀ (k : Nat) (line : String), (strings.Split input '\n')[k]? = some line →
      (strings.Split (templateYAMLIndent i input) '\n')[k]? =
        some (strings.Repeat " " i ++ line)) ∧
    strings.Split (templateYAMLIndent i input) '\n' =
      (strings.Split input '\n').map (fun line => strings.Repeat " " i ++ line) ∧
    templateYAMLIndent 8 "bar" = "        bar" := by
  refine ⟨?_, ?_, Split_templateYAMLIndent i input, by decide⟩
  · rw [Split_templateYAMLIndent, List.length_map]
  · intro k line hk
    rw [Split_templateYAMLIndent, List.getElem?_map, hk]
    rfl

/-- C17. `templateYAMLIndent` is lossless: removing the first `i` characters of every line
of `templateYAMLIndent i s` and joining the lines with line breaks gives `s` back; indenting
by zero changes nothing; indenting by `b` and then by `a` is indenting by `a + b`. -/
theorem templateYAMLIndent_lossless (i : Nat) (s : String) :
    strings.Join
      ((strings.Split (templateYAMLIndent i s) '\n').map
        (fun line => String.mk (line.data.drop i))) "\n" = s ∧
    templateYAMLIndent 0 s = s ∧
    ∀ a b : Nat, templateYAMLIndent a (templateYAMLIndent b s) = templateYAMLIndent (a + b) s := by
  refine ⟨?_, ?_, ?_⟩
  · rw [Split_templateYAMLIndent, List.map_map]
    have hid : ((fun line : String => String.mk (line.data.drop i)) ∘
        fun line => strings.Repeat " " i ++ line) = id := by
      funext line
      apply String.ext
      simp [String.data_append, strings.Repeat_space_data]
    rw [hid, List.map_id]
    exact strings.Join_Split s
  · apply String.ext
    rw [templateYAMLIndent_data]
    simpa using joinChars_splitChars '\n' s.data
  · intro a b
    apply String.ext
    rw [templateYAMLIndent_data a, splitChars_templateYAMLIndent, templateYAMLIndent_data]
    have h := joinChars_map_pad ['\n'] (List.replicate a ' ') (List.replicate b ' ')
      (splitChars '\n' s.data) (splitChars_ne_nil _ _)
    simp only [List.singleton_append] at h
    rw [h, List.replicate_add]

end IndentProperties

/-! ## Strictness of the generated configurations -/

section StrictProperties

variable {Clc Ast U L F Tmpl Data : Type}

/-- C12. The generated base config is converted in strict mode whatever the caller's flag:
when parsing or converting the base text yields at least one diagnostic entry of any
severity, `buildIgnitionConfig` returns an error, nil bytes and an empty warnings text, for
every CLC config. -/
theorem buildIgnitionConfig_base_strict (T : Transpiler Clc Ast U L F) (baseCLC : String)
    (clc : ContainerLinuxConfig)
    (h : (T.Parse baseCLC).2.2.Entries ≠ [] ∨
      (T.Convert (T.Parse baseCLC).1 "" (T.Parse baseCLC).2.1).2.Entries ≠ []) :
    ∃ err, buildIgnitionConfig T baseCLC clc = (none, "", some err) := by
  have hdiag : (T.diagnostics baseCLC).Entries ≠ [] := by
    simp only [Transpiler.diagnostics, Report.Merge]
    intro hnil
    rcases List.append_eq_nil.1 hnil with ⟨h1, h2⟩
    rcases h with h | h
    · exact h h1
    · exact h h2
  cases hb : (clcToIgnition T baseCLC true).2.2 with
  | none => exact absurd ((clcToIgnition_strict_ok_iff T baseCLC).1 hb) hdiag
  | some err => exact ⟨_, buildIgnitionConfig_of_base_error T baseCLC clc err hb⟩

/-- The claim C12 at a base text whose conversion warns, with a lenient CLC config. -/
theorem buildIgnitionConfig_base_strict_witness :
    ∃ err, buildIgnitionConfig demoTranspiler "?base" ⟨"extra", false⟩ = (none, "", some err) :=
  buildIgnitionConfig_base_strict demoTranspiler "?base" ⟨"extra", false⟩
    (Or.inr (by decide))

/-- C16. `generateIgnition` has no lenient mode: once the template has rendered the text
`out`, an entry of any severity in the parse report or in the conversion report of `out`
makes it return an error and nil bytes, and it returns bytes only when both reports are
empty. -/
theorem generateIgnition_no_lenient_mode (T : Transpiler Clc Ast U L F)
    (E : TemplateFuncs Tmpl Data) (platformEC2 kind tpl : String) (data : Data) (t : Tmpl)
    (out : String) (hparse : E.Parse kind tpl = Except.ok t)
    (hexec : E.Execute t data = Except.ok out) :
    (((T.Parse out).2.2.Entries ≠ [] ∨
        (T.Convert (T.Parse out).1 platformEC2 (T.Parse out).2.1).2.Entries ≠ []) →
      ∃ err, generateIgnition T E platformEC2 kind tpl data = (none, some err)) ∧
    (∀ userData, (generateIgnition T E platformEC2 kind tpl data).1 = some userData →
      (T.Parse out).2.2.Entries = [] ∧
      (T.Convert (T.Parse out).1 platformEC2 (T.Parse out).2.1).2.Entries = []) := by
  rcases hp : T.Parse out with ⟨cfg, ast, report⟩
  rcases hc : T.Convert cfg platformEC2 ast with ⟨ignCfg, report2⟩
  simp only [generateIgnition, hparse, hexec, hp, hc]
  cases h1 : report.Entries with
  | cons e es => simp
  | nil =>
    cases h2 : report2.Entries with
    | cons e es => simp
    | nil =>
      cases hm : T.Marshal ignCfg with
      | error err => simp
      | ok userData => simp

/-- The claim C16 at a template whose rendered text `"?tpl-data"` converts with one
warning: no bytes are returned. -/
theorem generateIgnition_no_lenient_mode_witness :
    ∃ err, generateIgnition demoTranspiler demoTemplates "ec2" "Node" "?tpl" "-data" =
      (none, some err) :=
  (generateIgnition_no_lenient_mode demoTranspiler demoTemplates "ec2" "Node" "?tpl" "-data"
    "?tpl" "?tpl-data" rfl rfl).1 (Or.inr (by decide))

end StrictProperties

/-! ## Further properties of the KubeadmControlPlane conversion -/

section RoundTripProperties

open v1alpha3

variable {LM M I K S T : Type} [Inhabited M] [Inhabited I] [Inhabited K] [Inhabited S]
  [Inhabited T]

/-- The result of `ConvertTo` on the helpers modelled from the spec, when the snapshot is
absent or deserializes: the structural mapping, with `Ignition` taken from the snapshot if
there is one and from the resource otherwise. -/
theorem ConvertTo_specFuncs_ok (C : Codec (v1alpha4.KubeadmControlPlaneSpec I K S × T))
    (x : KubeadmControlPlane M I K S T) (newer : v1alpha4.KubeadmControlPlane M I K S T)
    (hsnap : ∀ data, x.ObjectMeta.Snapshot = some data → ∃ b, C.Unmarshal data = Except.ok b) :
    KubeadmControlPlane.ConvertTo (specFuncs C) x newer =
      ({ ObjectMeta := x.ObjectMeta.Fields
         Spec :=
          { KubeadmConfigSpec :=
              { Ignition :=
                  match x.ObjectMeta.Snapshot with
                  | none => x.Spec.KubeadmConfigSpec.Ignition
                  | some data =>
                    match C.Unmarshal data with
                    | Except.ok b => b.1.KubeadmConfigSpec.Ignition
                    | Except.error _ => x.Spec.KubeadmConfigSpec.Ignition
                Other := x.Spec.KubeadmConfigSpec.Other }
            Other := x.Spec.Other }
         Status := x.Status }, none) := by
  cases hs : x.ObjectMeta.Snapshot with
  | none =>
    simp [KubeadmControlPlane.ConvertTo, specFuncs, UnmarshalData, hs,
      Convert_v1alpha3_KubeadmControlPlane_To_v1alpha4_KubeadmControlPlane]
  | some data =>
    obtain ⟨b, hb⟩ := hsnap data hs
    simp [KubeadmControlPlane.ConvertTo, specFuncs, UnmarshalData, hs, hb,
      Convert_v1alpha3_KubeadmControlPlane_To_v1alpha4_KubeadmControlPlane]

/-- C13, as amended. For an older-schema resource `x` whose snapshot is absent, or
deserializes and holds the `Ignition` value of `x`, converting up with `ConvertTo` and down
again with `ConvertFrom` succeeds and yields a value equal to `x` on every field apart from
the snapshot attached to the metadata. The helpers are the ones modelled from the spec; the
serializer is a parameter, assumed to serialize every value. -/
theorem ConvertTo_ConvertFrom_roundtrip
    (C : Codec (v1alpha4.KubeadmControlPlaneSpec I K S × T))
    (x older : KubeadmControlPlane M I K S T) (newer : v1alpha4.KubeadmControlPlane M I K S T)
    (hsnap : ∀ data, x.ObjectMeta.Snapshot = some data →
      ∃ b, C.Unmarshal data = Except.ok b ∧
        b.1.KubeadmConfigSpec.Ignition = x.Spec.KubeadmConfigSpec.Ignition)
    (hmarshal : ∀ b, ∃ data, C.Marshal b = Except.ok data) :
    (KubeadmControlPlane.ConvertTo (specFuncs C) x newer).2 = none ∧
    (KubeadmControlPlane.ConvertFrom (specFuncs C) older
      (KubeadmControlPlane.ConvertTo (specFuncs C) x newer).1).2 = none ∧
    (KubeadmControlPlane.ConvertFrom (specFuncs C) older
      (KubeadmControlPlane.ConvertTo (specFuncs C) x newer).1).1.ObjectMeta.Fields =
        x.ObjectMeta.Fields ∧
    (KubeadmControlPlane.ConvertFrom (specFuncs C) older
      (KubeadmControlPlane.ConvertTo (specFuncs C) x newer).1).1.Spec = x.Spec ∧
    (KubeadmControlPlane.ConvertFrom (specFuncs C) older
      (KubeadmControlPlane.ConvertTo (specFuncs C) x newer).1).1.Status = x.Status := by
  have hto := ConvertTo_specFuncs_ok C x newer
    (fun data hd => (hsnap data hd).imp fun _ h => h.1)
  have hign : (match x.ObjectMeta.Snapshot with
      | none => x.Spec.KubeadmConfigSpec.Ignition
      | some data =>
        match C.Unmarshal data with
        | Except.ok b => b.1.KubeadmConfigSpec.Ignition
        | Except.error _ => x.Spec.KubeadmConfigSpec.Ignition) =
      x.Spec.KubeadmConfigSpec.Ignition := by
    cases hs : x.ObjectMeta.Snapshot with
    | none => rfl
    | some data =>
      obtain ⟨b, hb, hbi⟩ := hsnap data hs
      simp [hb, hbi]
  rw [hign] at hto
  rw [hto]
  obtain ⟨data, hdata⟩ := hmarshal
    (({ KubeadmConfigSpec :=
          { Ignition := x.Spec.KubeadmConfigSpec.Ignition
            Other := x.Spec.KubeadmConfigSpec.Other }
        Other := x.Spec.Other } : v1alpha4.KubeadmControlPlaneSpec I K S), x.Status)
  simp [KubeadmControlPlane.ConvertFrom, specFuncs, MarshalData, hdata,
    Convert_v1alpha4_KubeadmControlPlane_To_v1alpha3_KubeadmControlPlane]

/-- The amended claim C13 at a concrete resource whose snapshot deserializes and holds the
`Ignition` value of the resource. -/
theorem ConvertTo_ConvertFrom_roundtrip_witness :
    (KubeadmControlPlane.ConvertTo (specFuncs demoCodec) demoSpokeSynced demoHubStale).2 =
      none ∧
    (KubeadmControlPlane.ConvertFrom (specFuncs demoCodec) demoSpokeBroken
      (KubeadmControlPlane.ConvertTo (specFuncs demoCodec) demoSpokeSynced
        demoHubStale).1).2 = none ∧
    (KubeadmControlPlane.ConvertFrom (specFuncs demoCodec) demoSpokeBroken
      (KubeadmControlPlane.ConvertTo (specFuncs demoCodec) demoSpokeSynced
        demoHubStale).1).1.ObjectMeta.Fields = demoSpokeSynced.ObjectMeta.Fields ∧
    (KubeadmControlPlane.ConvertFrom (specFuncs demoCodec) demoSpokeBroken
      (KubeadmControlPlane.ConvertTo (specFuncs demoCodec) demoSpokeSynced
        demoHubStale).1).1.Spec = demoSpokeSynced.Spec ∧
    (KubeadmControlPlane.ConvertFrom (specFuncs demoCodec) demoSpokeBroken
      (KubeadmControlPlane.ConvertTo (specFuncs demoCodec) demoSpokeSynced
        demoHubStale).1).1.Status = demoSpokeSynced.Status :=
  ConvertTo_ConvertFrom_roundtrip demoCodec demoSpokeSynced demoSpokeBroken demoHubStale
    (fun data hdata => by
      have e : data = "tft+strict" := (Option.some.inj hdata).symm
      subst e
      exact ⟨_, rfl, rfl⟩)
    (fun _ => ⟨_, rfl⟩)

/-- C13 as stated fails at two older-schema resources. `demoSpokeBroken` carries a snapshot
that does not deserialize: converting it up into a fresh resource returns an error, so the
round trip does not succeed. `demoSpokeSnapshot` holds the `Ignition` value `edited` and a
valid snapshot that holds `strict`: both conversions succeed, and the round trip yields
`strict` in `Spec.KubeadmConfigSpec.Ignition`. -/
theorem ConvertTo_ConvertFrom_roundtrip_fails :
    (demoSpokeBroken.ObjectMeta.Snapshot = some "not json" ∧
      (KubeadmControlPlane.ConvertTo demoFuncs demoSpokeBroken
        v1alpha4.KubeadmControlPlane.zero).2 = some "invalid character") ∧
    (demoSpokeSnapshot.Spec.KubeadmConfigSpec.Ignition = some "edited" ∧
      (KubeadmControlPlane.ConvertTo demoFuncs demoSpokeSnapshot
        v1alpha4.KubeadmControlPlane.zero).2 = none ∧
      (KubeadmControlPlane.ConvertFrom demoFuncs KubeadmControlPlane.zero
        (KubeadmControlPlane.ConvertTo demoFuncs demoSpokeSnapshot
          v1alpha4.KubeadmControlPlane.zero).1).2 = none ∧
      (KubeadmControlPlane.ConvertFrom demoFuncs KubeadmControlPlane.zero
        (KubeadmControlPlane.ConvertTo demoFuncs demoSpokeSnapshot
          v1alpha4.KubeadmControlPlane.zero).1).1.Spec.KubeadmConfigSpec.Ignition =
            some "strict") :=
  ⟨⟨rfl, rfl⟩, ⟨rfl, rfl, rfl, rfl⟩⟩

/-- C14, as amended. The list methods convert element-wise with the structural mapping of
the resource: they return no error and a list of the same length and order whose `k`-th
item is the structural mapping of the `k`-th input item into a fresh destination. No
snapshot is restored or attached, so for `ConvertTo` the item is the result of the
single-resource `ConvertTo` when the input item carries no snapshot. -/
theorem KubeadmControlPlaneList_convert_elementwise
    (C : Codec (v1alpha4.KubeadmControlPlaneSpec I K S × T))
    (spokes older : KubeadmControlPlaneList LM M I K S T)
    (hubs newer : v1alpha4.KubeadmControlPlaneList LM M I K S T) :
    ((KubeadmControlPlaneList.ConvertTo specListFuncs spokes newer).2 = none ∧
      (KubeadmControlPlaneList.ConvertTo specListFuncs spokes newer).1.Items.length =
        spokes.Items.length ∧
      (∀ (k : Nat) (item : KubeadmControlPlane M I K S T), spokes.Items[k]? = some item →
        (KubeadmControlPlaneList.ConvertTo specListFuncs spokes newer).1.Items[k]? =
          some (Convert_v1alpha3_KubeadmControlPlane_To_v1alpha4_KubeadmControlPlane item
            v1alpha4.KubeadmControlPlane.zero).1) ∧
      (∀ (k : Nat) (item : KubeadmControlPlane M I K S T), spokes.Items[k]? = some item →
        item.ObjectMeta.Snapshot = none →
        (KubeadmControlPlaneList.ConvertTo specListFuncs spokes newer).1.Items[k]? =
          some (KubeadmControlPlane.ConvertTo (specFuncs C) item
            v1alpha4.KubeadmControlPlane.zero).1)) ∧
    ((KubeadmControlPlaneList.ConvertFrom specListFuncs older hubs).2 = none ∧
      (KubeadmControlPlaneList.ConvertFrom specListFuncs older hubs).1.Items.length =
        hubs.Items.length ∧
      (∀ (k : Nat) (item : v1alpha4.KubeadmControlPlane M I K S T),
        hubs.Items[k]? = some item →
        (KubeadmControlPlaneList.ConvertFrom specListFuncs older hubs).1.Items[k]? =
          some (Convert_v1alpha4_KubeadmControlPlane_To_v1alpha3_KubeadmControlPlane item
            KubeadmControlPlane.zero).1)) := by
  refine ⟨⟨rfl, ?_, ?_, ?_⟩, ⟨rfl, ?_, ?_⟩⟩
  · simp [KubeadmControlPlaneList.ConvertTo, specListFuncs,
      Convert_v1alpha3_KubeadmControlPlaneList_To_v1alpha4_KubeadmControlPlaneList]
  · intro k item hk
    simp [KubeadmControlPlaneList.ConvertTo, specListFuncs,
      Convert_v1alpha3_KubeadmControlPlaneList_To_v1alpha4_KubeadmControlPlaneList, hk]
  · intro k item hk hsnap
    simp [KubeadmControlPlaneList.ConvertTo, specListFuncs,
      Convert_v1alpha3_KubeadmControlPlaneList_To_v1alpha4_KubeadmControlPlaneList, hk,
      KubeadmControlPlane.ConvertTo, specFuncs, UnmarshalData, hsnap,
      Convert_v1alpha3_KubeadmControlPlane_To_v1alpha4_KubeadmControlPlane]
  · simp [KubeadmControlPlaneList.ConvertFrom, specListFuncs,
      Convert_v1alpha4_KubeadmControlPlaneList_To_v1alpha3_KubeadmControlPlaneList]
  · intro k item hk
    simp [KubeadmControlPlaneList.ConvertFrom, specListFuncs,
      Convert_v1alpha4_KubeadmControlPlaneList_To_v1alpha3_KubeadmControlPlaneList, hk]

/-- C14 as stated fails. The list `ConvertTo` leaves `Ignition` of the item as the
structural mapping gives it although the single-resource `ConvertTo` overlays the value of
the snapshot of the item, and the list
`ConvertFrom` yields an item without a snapshot although the single-resource `ConvertFrom`
attaches one. -/
theorem KubeadmControlPlaneList_items_differ :
    ((KubeadmControlPlaneList.ConvertTo demoListFuncs demoSpokeList ⟨"", []⟩).1.Items.map
      (fun item => item.Spec.KubeadmConfigSpec.Ignition) = [some "edited"] ∧
      (KubeadmControlPlane.ConvertTo demoFuncs demoSpokeSnapshot
        v1alpha4.KubeadmControlPlane.zero).1.Spec.KubeadmConfigSpec.Ignition =
          some "strict") ∧
    ((KubeadmControlPlaneList.ConvertFrom demoListFuncs ⟨"", []⟩ demoHubList).1.Items.map
      (fun item => item.ObjectMeta.Snapshot) = [none] ∧
      (KubeadmControlPlane.ConvertFrom demoFuncs KubeadmControlPlane.zero
        demoHub).1.ObjectMeta.Snapshot = some "tft+strict") :=
  ⟨⟨rfl, rfl⟩, ⟨rfl, rfl⟩⟩

end RoundTripProperties

/-! ## Order of the rendered text -/

section OrderProperties

/-- A text cut at a line break: the lines before the break, then the lines after it. -/
theorem lines_append_break (a b c : String) (h : b.data = '\n' :: c.data) :
    lines (a ++ b) = lines a ++ lines c := by
  simp only [lines, strings.Split, String.data_append, h, splitChars_append_sep,
    List.map_append]

/-- A text cut at the line break that starts a middle part. -/
theorem lines_append_break_mid (a b c r : String) (h : b.data = '\n' :: c.data) :
    lines (a ++ b ++ r) = lines a ++ lines (c ++ r) := by
  have e : a ++ b ++ r = a ++ (b ++ r) := String.append_assoc a b r
  rw [e]
  exact lines_append_break a (b ++ r) (c ++ r) (by simp [String.data_append, h])

/-- A text cut at the line break that ends a middle part. -/
theorem lines_append_break_end (a b c r : String) (h : b.data = c.data ++ ['\n']) :
    lines (a ++ b ++ r) = lines (a ++ c) ++ lines r := by
  simp only [lines, strings.Split, String.data_append, h, List.append_assoc,
    List.singleton_append, ← List.map_append]
  rw [← List.append_assoc, splitChars_append_sep]

/-- A text that starts with a line break has an empty first line. -/
theorem lines_break_first (b c r : String) (h : b.data = '\n' :: c.data) :
    lines (b ++ r) = [""] ++ lines (c ++ r) := by
  simp only [lines, strings.Split, String.data_append, h, List.cons_append, splitChars,
    if_true, List.map_cons, List.singleton_append]
  rfl

/-- The lines of the text a `range` action appends, when every iteration starts with a line
break. -/
theorem lines_concatMapText {α : Type} (f g : α → String)
    (hfg : ∀ a, (f a).data = '\n' :: (g a).data) (x : String) (l : List α) :
    lines (x ++ concatMapText f l) = lines x ++ l.flatMap (fun a => lines (g a)) := by
  induction l generalizing x with
  | nil => simp [concatMapText]
  | cons a l ih =>
    have e : x ++ concatMapText f (a :: l) = (x ++ f a) ++ concatMapText f l := by
      simp [concatMapText, String.append_assoc]
    rw [e, ih, lines_append_break x (f a) (g a) (hfg a), List.flatMap_cons,
      List.append_assoc]

/-- A line without a line break stays one line behind its indentation. -/
theorem lines_of_no_break (c : String) (h : '\n' ∉ c.data) :
    lines ("        " ++ c) = ["        " ++ c] := by
  have hmem : '\n' ∉ ("        " ++ c).data := by
    simp only [String.data_append, List.mem_append, not_or]
    exact ⟨by decide, h⟩
  simp only [lines, strings.Split, splitChars_of_not_mem _ _ hmem, List.map]

/-- The lines of the text `renderCLC` produces, for every input: the lines of the template
head, of each `WriteFiles` entry, of the opening of the `/etc/kubeadm.sh` entry, of each
pre-kubeadm command, an empty line, the lines of the kubeadm command, the `mv` line, the
lines of each post-kubeadm command, and the `/etc/kubeadm.yml` entry. -/
theorem renderCLC_lines (input : BaseUserData) (kubeadmConfig : String) :
    ∃ out : String, renderCLC (some input) kubeadmConfig = (some out, none) ∧
      lines out =
        lines clcTemplateHead ++
        input.WriteFiles.flatMap (fun f => lines (clcFileEntry f)) ++
        ["  - path: /etc/kubeadm.sh", "    mode: 0700", "    contents:", "      inline: |",
          "        #!/bin/bash", "        set -e"] ++
        input.PreKubeadmCommands.flatMap (fun c => lines ("        " ++ c)) ++
        [""] ++
        lines ("        " ++ input.KubeadmCommand) ++
        ["        mv /etc/kubeadm.yml /tmp/"] ++
        input.PostKubeadmCommands.flatMap (fun c => lines ("        " ++ c)) ++
        ["  - path: /etc/kubeadm.yml", "    mode: 0600", "    contents:", "      inline: |",
          "        ---"] ++
        lines (templateYAMLIndent 8 kubeadmConfig) ++
        [""] := by
  refine ⟨_, rfl, ?_⟩
  have hfile : ∀ f : File, (clcTemplateFile f).data = '\n' :: (clcFileEntry f).data := by
    intro f
    simp only [clcTemplateFile, clcFileEntry, String.data_append]
    rfl
  have hcmd : ∀ c : String, (clcTemplateCommand c).data = '\n' :: ("        " ++ c).data := by
    intro c
    simp only [clcTemplateCommand, String.data_append]
    rfl
  rw [lines_append_break _ "\n" "" rfl]
  rw [lines_append_break_end _ "        ---\n" "        ---" _ rfl]
  rw [lines_append_break_mid _
    "\n  - path: /etc/kubeadm.yml\n    mode: 0600\n    contents:\n      inline: |\n"
    "  - path: /etc/kubeadm.yml\n    mode: 0600\n    contents:\n      inline: |\n" _ rfl]
  rw [lines_concatMapText clcTemplateCommand (fun c => "        " ++ c) hcmd]
  rw [lines_append_break _ "\n        mv /etc/kubeadm.yml /tmp/"
    "        mv /etc/kubeadm.yml /tmp/" rfl]
  rw [lines_append_break_mid _ "\n\n        " "\n        " _ rfl]
  rw [lines_break_first "\n        " "        " _ rfl]
  rw [lines_concatMapText clcTemplateCommand (fun c => "        " ++ c) hcmd]
  rw [lines_append_break_mid _
    "\n  - path: /etc/kubeadm.sh\n    mode: 0700\n    contents:\n      inline: |\n"
    "  - path: /etc/kubeadm.sh\n    mode: 0700\n    contents:\n      inline: |\n" _ rfl]
  rw [lines_concatMapText clcTemplateFile clcFileEntry hfile]
  have h1 : lines
      ("  - path: /etc/kubeadm.sh\n    mode: 0700\n    contents:\n      inline: |\n" ++
        "        #!/bin/bash\n        set -e") =
      ["  - path: /etc/kubeadm.sh", "    mode: 0700", "    contents:", "      inline: |",
        "        #!/bin/bash", "        set -e"] := by decide
  have h2 : lines
      ("  - path: /etc/kubeadm.yml\n    mode: 0600\n    contents:\n      inline: |\n" ++
        "        ---") =
      ["  - path: /etc/kubeadm.yml", "    mode: 0600", "    contents:", "      inline: |",
        "        ---"] := by decide
  have h3 : lines "        mv /etc/kubeadm.yml /tmp/" = ["        mv /etc/kubeadm.yml /tmp/"] := by
    decide
  have h4 : lines "" = [""] := by decide
  rw [h1, h2, h3, h4]
  simp only [List.append_assoc]

/-- Commands without a line break occupy one line each. -/
theorem flatMap_lines_of_no_break (l : List String) (h : ∀ c ∈ l, '\n' ∉ c.data) :
    l.flatMap (fun c => lines ("        " ++ c)) = l.map (fun c => "        " ++ c) := by
  induction l with
  | nil => rfl
  | cons c l ih =>
    rw [List.flatMap_cons, lines_of_no_break c (h c (List.mem_cons_self _ _)),
      ih (fun d hd => h d (List.mem_cons_of_mem _ hd))]
    rfl

/-- C15, as amended. When no pre-kubeadm command, no post-kubeadm command and not the
kubeadm command contains a line break, the lines of the text `renderCLC` produces are, in
this order: the template head, the `WriteFiles` entries in input order, the six lines that
open the `/etc/kubeadm.sh` entry, one line for each pre-kubeadm command in input order, an
empty line, the line of the kubeadm command, the line `mv /etc/kubeadm.yml /tmp/`, one line
for each post-kubeadm command in input order, and the `/etc/kubeadm.yml` entry. -/
theorem renderCLC_order (input : BaseUserData) (kubeadmConfig : String)
    (hpre : ∀ c ∈ input.PreKubeadmCommands, '\n' ∉ c.data)
    (hcmd : '\n' ∉ input.KubeadmCommand.data)
    (hpost : ∀ c ∈ input.PostKubeadmCommands, '\n' ∉ c.data) :
    ∃ out : String, renderCLC (some input) kubeadmConfig = (some out, none) ∧
      lines out =
        lines clcTemplateHead ++
        input.WriteFiles.flatMap (fun f => lines (clcFileEntry f)) ++
        ["  - path: /etc/kubeadm.sh", "    mode: 0700", "    contents:", "      inline: |",
          "        #!/bin/bash", "        set -e"] ++
        input.PreKubeadmCommands.map (fun c => "        " ++ c) ++
        ["", "        " ++ input.KubeadmCommand, "        mv /etc/kubeadm.yml /tmp/"] ++
        input.PostKubeadmCommands.map (fun c => "        " ++ c) ++
        ["  - path: /etc/kubeadm.yml", "    mode: 0600", "    contents:", "      inline: |",
          "        ---"] ++
        lines (templateYAMLIndent 8 kubeadmConfig) ++
        [""] := by
  obtain ⟨out, hout, hlines⟩ := renderCLC_lines input kubeadmConfig
  refine ⟨out, hout, ?_⟩
  rw [hlines, flatMap_lines_of_no_break _ hpre, flatMap_lines_of_no_break _ hpost,
    lines_of_no_break _ hcmd]
  simp only [List.append_assoc, List.cons_append, List.nil_append]

/-- The amended claim C15 at a base descriptor with one file, two pre-kubeadm commands and
one post-kubeadm command, none with a line break. -/
theorem renderCLC_order_witness :
    ∃ out : String, renderCLC (some demoInputCommands) "foo" = (some out, none) ∧
      lines out =
        lines clcTemplateHead ++
        ["  - path: /foo", "    contents:", "      inline: |", "        bar"] ++
        ["  - path: /etc/kubeadm.sh", "    mode: 0700", "    contents:", "      inline: |",
          "        #!/bin/bash", "        set -e"] ++
        ["        pre1", "        pre2"] ++
        ["", "        kubeadm init", "        mv /etc/kubeadm.yml /tmp/"] ++
        ["        post1"] ++
        ["  - path: /etc/kubeadm.yml", "    mode: 0600", "    contents:", "      inline: |",
          "        ---"] ++
        ["        foo"] ++
        [""] := by
  obtain ⟨out, hout, hlines⟩ := renderCLC_order demoInputCommands "foo" (by decide) (by decide)
    (by decide)
  refine ⟨out, hout, ?_⟩
  rw [hlines]
  decide

/-- C15 as stated fails at a descriptor whose pre-kubeadm command is `a`, line break, `b`
and whose kubeadm command is `x`, line break, `y`. The commands are inserted as they are: no
line of the rendered text is the pre-kubeadm command or the kubeadm command, the second line
of each is not indented, and the line before `mv /etc/kubeadm.yml /tmp/` is `y`. -/
theorem renderCLC_multiline_command :
    ∃ out : String, renderCLC (some demoInputMultiline) "foo" = (some out, none) ∧
      ("        " ++ "a\nb") ∉ lines out ∧
      ("        " ++ "x\ny") ∉ lines out ∧
      lines out =
        lines clcTemplateHead ++
        ["  - path: /etc/kubeadm.sh", "    mode: 0700", "    contents:", "      inline: |",
          "        #!/bin/bash", "        set -e"] ++
        ["        a", "b"] ++
        ["", "        x", "y", "        mv /etc/kubeadm.yml /tmp/"] ++
        ["  - path: /etc/kubeadm.yml", "    mode: 0600", "    contents:", "      inline: |",
          "        ---", "        foo", ""] :=
  ⟨_, rfl, by decide, by decide, by decide⟩

end OrderProperties

end ClusterApi
